import Mathlib

/-!
# Recession-risk dashboard: time-range selection and data reconciliation

A shallow embedding of `src/app.js` (the `timeRangeSelector` chart plugin and the
`RecessionRiskVisualizer` class) together with theorems about it.

Numbers: JavaScript numbers that hold pixel coordinates are modelled by rationals
(exact arithmetic, no NaN, no infinities); indices are integers.
-/

namespace RecessionRisk

/-! ## Numeric primitives -/

/-- `Math.round`: the nearest integer, a tie going to the larger one. -/
def mathRound (q : ℚ) : ℤ := ⌊q + 1 / 2⌋

/-! ## The chart as seen by the `timeRangeSelector` plugin -/

/-- The horizontal scale of the chart, `chart.scales.x`: its left and right pixel edge. -/
structure XScale where
  left : ℚ
  right : ℚ
deriving DecidableEq, Repr

/-- Integer-valued part of `getDataIndexFromX` once the scale and the number `len` of
records in the view (`filteredData.length`) are known (source lines 100-113). The source
divides by `chartWidth`. On a scale with `left = right` it computes `0 / 0`, which is NaN,
and returns NaN; the model has no NaN and gives index 0 there, so it stands for the source
on scales with `left ≠ right` only. With `right < left` every pixel clamps to `left` and
the index is 0, in the source as in the model. -/
def dataIndexOnScale (xScale : XScale) (len : ℕ) (x : ℚ) : Option ℤ :=
  let chartLeft := xScale.left
  let chartRight := xScale.right
  let chartWidth := chartRight - chartLeft
  let clampedX := max chartLeft (min x chartRight)
  let relativeX := (clampedX - chartLeft) / chartWidth
  if len = 0 then none
  else
    let dataIndex := mathRound (relativeX * (((len : ℤ) - 1 : ℤ) : ℚ))
    some (max 0 (min dataIndex ((len : ℤ) - 1)))

/-! ## Data model -/

/-- One parsed CSV row of a series (PapaParse, `header: true`, `dynamicTyping: true`).
The `parsedDate` that `processCountryData` attaches is a function of `Time` and is not
stored. -/
structure Row where
  Time : String
  RecessionRisk_p05 : ℚ
  RecessionRisk_p50 : ℚ
  RecessionRisk_p95 : ℚ
  Recession : ℤ
deriving DecidableEq, Repr

/-- A store entry `{ data, csvText }` as written by `loadCountryData` and
`loadCountryDataOOS`. -/
structure CountryEntry where
  data : List Row
  csvText : String
deriving DecidableEq, Repr

/-- A property value of a record built by `getFilteredData`: the `Time` label, a series
row, or `null`. -/
inductive Value where
  | str (s : String)
  | row (r : Row)
  | null
deriving DecidableEq, Repr

/-- A record `dataPoint` of `getFilteredData`: a JavaScript object, kept as its list of
own properties in creation order. A key that is absent reads as `undefined`. Keys are
ordinary property names (the model leaves out `__proto__` and the engine's placing of
integer-like keys first). -/
abbrev DataPoint := List (String × Value)

/-- Property assignment `obj[k] = v`: an existing key keeps its place and takes the new
value, a new key is appended. -/
def setKey : DataPoint → String → Value → DataPoint
  | [], k, v => [(k, v)]
  | (k', v') :: rest, k, v =>
    if k' = k then (k, v) :: rest else (k', v') :: setKey rest k v

/-- Property read `obj[k]`; `none` is `undefined`. -/
def getKey : DataPoint → String → Option Value
  | [], _ => none
  | (k', v') :: rest, k => if k' = k then some v' else getKey rest k

/-- What `chart.timeSelection` holds (source lines 7-12). -/
structure TimeSelection where
  isSelecting : Bool
  startX : Option ℚ
  endX : Option ℚ
  eventsAttached : Bool
deriving DecidableEq, Repr

/-- The parts of a Chart.js chart that the plugin reads: `chart.scales.x` (absent before
layout), `chart.config._config.filteredData` (absent until `createChart` stores it),
`chart.timeSelection`, and whether `chart.config._config.visualizer` is set (`createChart`
sets it right after building the chart). -/
structure Chart where
  scalesX : Option XScale
  filteredData : Option (List DataPoint)
  timeSelection : TimeSelection
  hasVisualizer : Bool := true
deriving DecidableEq, Repr

/-- Initial drag state, `beforeInit` (source lines 5-13). -/
def beforeInit (chart : Chart) : Chart :=
  { chart with
    timeSelection :=
      { isSelecting := false, startX := none, endX := none, eventsAttached := false } }

/-- Source lines 96-114, `timeRangeSelector.getDataIndexFromX`. `none` is the `null` the
source returns when there is no x scale or the view is empty. -/
def getDataIndexFromX (chart : Chart) (x : ℚ) : Option ℤ :=
  match chart.scalesX with
  | none => none
  | some xScale =>
    let filteredData := chart.filteredData.getD []
    dataIndexOnScale xScale filteredData.length x

/-! ## Committing a drag -/

/-- The two range inputs as `applySelection` and `handleRangeChange` read them: the
integers `parseInt` gives for `value` of `time-range-start` and of `time-range-end`, and
for `max` of `time-range-end`. Both elements exist and hold integers. -/
structure RangeSliders where
  startValue : ℤ
  endValue : ℤ
  max : ℤ
deriving DecidableEq, Repr

/-- `Math.max(0, Math.min(x, rect.width))` (source lines 124-125). -/
def clampToCanvas (rectWidth x : ℚ) : ℚ := max 0 (min x rectWidth)

/-- Source lines 134-157: the range computed from two distinct view indices. -/
def committedRange (chart : Chart) (doc : RangeSliders) (startIndex endIndex : ℤ) : ℤ × ℤ :=
  let startIdx := min startIndex endIndex
  let endIdx := max startIndex endIndex
  let currentStartIndex := doc.startValue
  let currentEndIndex := doc.endValue
  let currentRangeSize := currentEndIndex - currentStartIndex
  let filteredDataLength : ℤ :=
    match chart.filteredData with
    | some data => if data.length = 0 then 1 else data.length
    | none => 1
  let selectionStartRatio : ℚ := (startIdx : ℚ) / ((max 1 (filteredDataLength - 1) : ℤ) : ℚ)
  let selectionEndRatio : ℚ := (endIdx : ℚ) / ((max 1 (filteredDataLength - 1) : ℤ) : ℚ)
  let absoluteStartIdx := currentStartIndex + mathRound (selectionStartRatio * currentRangeSize)
  let absoluteEndIdx := currentStartIndex + mathRound (selectionEndRatio * currentRangeSize)
  let maxIndex := doc.max
  let finalStartIdx := max 0 (min absoluteStartIdx (maxIndex - 1))
  let finalEndIdx := max (finalStartIdx + 1) (min absoluteEndIdx maxIndex)
  (finalStartIdx, finalEndIdx)

/-- What `applySelection` leaves behind: the chart (its drag coordinates cleared), the
two sliders, and whether the visualizer was told to recompute (`updateRangeLabels`,
`updateVisualRange`, `updateChart`). -/
structure Applied where
  chart : Chart
  sliders : RangeSliders
  updated : Bool
deriving DecidableEq, Repr

/-- Source lines 116-177, `timeRangeSelector.applySelection`. `rectWidth` is the width of
`canvas.getBoundingClientRect()`. A value written to a slider is stored as it is (the
browser's own clamping of a range input to its bounds is not modelled). -/
def applySelection (chart : Chart) (rectWidth : ℚ) (doc : RangeSliders) : Applied :=
  let selection := chart.timeSelection
  let cleared : Chart :=
    { chart with timeSelection := { selection with startX := none, endX := none } }
  match selection.startX, selection.endX with
  | some startX, some endX =>
    let clampedStartX := clampToCanvas rectWidth startX
    let clampedEndX := clampToCanvas rectWidth endX
    match getDataIndexFromX chart clampedStartX, getDataIndexFromX chart clampedEndX with
    | some startIndex, some endIndex =>
      if startIndex ≠ endIndex then
        let final := committedRange chart doc startIndex endIndex
        { chart := cleared,
          sliders := { doc with startValue := final.1, endValue := final.2 },
          updated := chart.hasVisualizer }
      else { chart := cleared, sliders := doc, updated := false }
    | _, _ => { chart := cleared, sliders := doc, updated := false }
  | _, _ => { chart := cleared, sliders := doc, updated := false }

/-! ## Time labels -/

/-- `String.prototype.includes` on character lists. -/
def includes : List Char → List Char → Bool
  | [], pat => pat.isPrefixOf []
  | c :: s, pat => pat.isPrefixOf (c :: s) || includes s pat

/-- The number written by four decimal digits `a b c d`, when all four are ASCII digits
(the regular expression `\d` without the unicode flag). -/
def fourDigits (a b c d : Char) : Option ℕ :=
  if a.isDigit && b.isDigit && c.isDigit && d.isDigit then
    some ((a.toNat - 48) * 1000 + (b.toNat - 48) * 100 + (c.toNat - 48) * 10 + (d.toNat - 48))
  else none

/-- `parseInt(timeStr.match(/\d{4}/)?.[0])`: the leftmost run of four digits, read as a
number; `none` when there is no match (`parseInt(undefined)` is `NaN`). -/
def matchFourDigits : List Char → Option ℕ
  | a :: b :: c :: d :: rest =>
    match fourDigits a b c d with
    | some n => some n
    | none => matchFourDigits (b :: c :: d :: rest)
  | _ => none

/-- `parseInt(...) || dflt`: `NaN` and `0` are falsy. -/
def orDefault (n : Option ℕ) (dflt : ℕ) : ℕ :=
  match n with
  | some k => if k = 0 then dflt else k
  | none => dflt

/-- The `year` expression of `parseTimeString` (source lines 720-724). -/
def parseYear (timeStr : String) : ℕ :=
  let s := timeStr.data
  if includes s "198".data then orDefault (matchFourDigits s) 1980
  else if includes s "199".data then orDefault (matchFourDigits s) 1990
  else if includes s "200".data then orDefault (matchFourDigits s) 2000
  else if includes s "201".data then orDefault (matchFourDigits s) 2010
  else if includes s "202".data then orDefault (matchFourDigits s) 2020
  else 2020

/-- `timeStr.split(" ")[0]`: the text before the first space (source line 726). -/
def parseMonth (timeStr : String) : String :=
  ⟨timeStr.data.takeWhile (fun c => c != ' ')⟩

/-- The month words the model of `new Date("<month> 1, <year>")` reads, with the month
counted from 0: the twelve English month names and their three-letter abbreviations. -/
def monthTable : List (String × ℕ) :=
  [("January", 0), ("Jan", 0), ("February", 1), ("Feb", 1), ("March", 2), ("Mar", 2),
   ("April", 3), ("Apr", 3), ("May", 4), ("June", 5), ("Jun", 5), ("July", 6), ("Jul", 6),
   ("August", 7), ("Aug", 7), ("September", 8), ("Sep", 8), ("October", 9), ("Oct", 9),
   ("November", 10), ("Nov", 10), ("December", 11), ("Dec", 11)]

/-- The month that `new Date("<month> 1, <year>")` reads from the month word. The
parsing of this date format is left to the JavaScript engine; the model reads the words
of `monthTable` and takes every other word to give an Invalid Date (`none`). -/
def monthIndex (month : String) : Option ℕ := monthTable.lookup month

/-- A `Date` built by `parseTimeString`: the first day of a month of a year, local time. -/
structure MonthDate where
  year : ℕ
  month : ℕ
deriving DecidableEq, Repr

/-- Source lines 719-728, `parseTimeString`. `none` is an Invalid Date. The year is the
four-digit number the source computes (a year below 100 would go through the engine's
two-digit-year rule, which the model leaves out). -/
def parseTimeString (timeStr : String) : Option MonthDate :=
  let year := parseYear timeStr
  let month := parseMonth timeStr
  (monthIndex month).map (fun m => { year := year, month := m })

/-- The number a `Date` converts to in `dateA - dateB`, up to an order-preserving
rescaling: months elapsed instead of milliseconds (the first days of two months compare
as their (year, month) pairs do). -/
def dateValue (d : MonthDate) : ℤ := 12 * (d.year : ℤ) + (d.month : ℤ)

/-- The comparator of `getAllTimePoints` (source lines 712-716): `dateA - dateB`, which
is `NaN` (`none`) when either date is invalid. -/
def compareTime (a b : String) : Option ℤ :=
  match parseTimeString a, parseTimeString b with
  | some dateA, some dateB => some (dateValue dateA - dateValue dateB)
  | _, _ => none

/-- The order `Array.prototype.sort` derives from the comparator: `a` may stay before
`b` when the comparator's result is not positive, a `NaN` result counting as `0`. -/
def sortsBefore (a b : String) : Prop := (compareTime a b).getD 0 ≤ 0

instance : DecidableRel sortsBefore := fun a b => by unfold sortsBefore; infer_instance

/-- `Array.prototype.sort` with the comparator of `getAllTimePoints`: a stable sort
(ECMAScript 2019), here by insertion. Where the comparator is not a consistent order
(labels with an Invalid Date) the standard leaves the order to the engine. -/
def sortTimePoints (l : List String) : List String := l.insertionSort sortsBefore

/-! ## The visualizer -/

/-- What the `.chart-container` element shows. -/
inductive Container where
  | canvas
  | errorMessage
deriving DecidableEq, Repr

/-- The fields of `RecessionRiskVisualizer` the reconciliation reads and writes
(constructor, source lines 215-241). The two stores are JavaScript objects keyed by
country code; `none` is a missing key (a name inherited from `Object.prototype` is not
a country code). `chartAlive` is `this.chart !== null`. -/
structure Visualizer where
  countryData : String → Option CountryEntry
  countryDataOOS : String → Option CountryEntry
  selectedCountries : List String
  estimationMode : String
  hasOOSError : Bool
  chartAlive : Bool
  container : Container

/-- The two range inputs `time-range-start` and `time-range-end` of the page: the
integer `parseInt` reads from `value`, or `none` when the element is missing or its
value is empty. -/
structure Sliders where
  startValue : Option ℤ
  endValue : Option ℤ
deriving DecidableEq, Repr

/-- Keys of the `countryLabels` table (source lines 223-230). -/
def countryCodes : List String := ["DE", "FRA", "EA", "US", "SPA", "ITA"]

/-- `Set.prototype.add` on a set kept in insertion order. -/
def setAdd (s : List String) (t : String) : List String :=
  if t ∈ s then s else s ++ [t]

/-- The loop body of `getAllTimePoints` for one country (source lines 700-709). -/
def addCountryTimePoints (v : Visualizer) (acc : List String) (country : String) :
    List String :=
  let acc1 :=
    match v.countryData country with
    | some entry => entry.data.foldl (fun s row => setAdd s row.Time) acc
    | none => acc
  match v.countryDataOOS country with
  | some entry => entry.data.foldl (fun s row => setAdd s row.Time) acc1
  | none => acc1

/-- The set `allTimePoints` before sorting, as `Array.from` lists it. -/
def collectTimePoints (v : Visualizer) : List String :=
  v.selectedCountries.foldl (addCountryTimePoints v) []

/-- Source lines 695-717, `getAllTimePoints`. -/
def getAllTimePoints (v : Visualizer) : List String :=
  sortTimePoints (collectTimePoints v)

/-- Source lines 765-785, `showOOSDataError`. -/
def showOOSDataError (v : Visualizer) : Visualizer :=
  { v with hasOOSError := true, chartAlive := false, container := Container.errorMessage }

/-- Source lines 787-793, `hideOOSDataError`. -/
def hideOOSDataError (v : Visualizer) : Visualizer :=
  { v with hasOOSError := false, container := Container.canvas }

/-- `Array.prototype.slice(start, end)` with integer arguments: a negative argument
counts from the end. -/
def jsSlice {α : Type} (l : List α) (start stop : ℤ) : List α :=
  let len : ℤ := l.length
  let k := if start < 0 then max (len + start) 0 else min start len
  let final := if stop < 0 then max (len + stop) 0 else min stop len
  (l.drop k.toNat).take (final - k).toNat

/-- `array.find(row => row.Time === timePoint)` followed by `|| null`. -/
def findRow (data : List Row) (timePoint : String) : Value :=
  match data.find? (fun row => row.Time = timePoint) with
  | some row => Value.row row
  | none => Value.null

/-- The filter callback of source lines 832-844. -/
def isAvailable (v : Visualizer) (country : String) : Bool :=
  let hasLatest := (v.countryData country).isSome
  let hasOOS := (v.countryDataOOS country).isSome
  if v.estimationMode = "latest" then hasLatest
  else if v.estimationMode = "realtime" then hasOOS
  else if v.estimationMode = "both" then hasLatest && hasOOS
  else false

/-- The list `availableCountries` of source lines 832-844. -/
def availableCountries (v : Visualizer) : List String :=
  v.selectedCountries.filter (isAvailable v)

/-- The `forEach` body of source lines 850-862: the keys one available country adds to
the record. `?.data.find` on a missing entry is `undefined`, hence `null`. -/
def addCountry (v : Visualizer) (timePoint : String) (dataPoint : DataPoint)
    (country : String) : DataPoint :=
  let latestData :=
    match v.countryData country with
    | some entry => findRow entry.data timePoint
    | none => Value.null
  let oosData :=
    match v.countryDataOOS country with
    | some entry => findRow entry.data timePoint
    | none => Value.null
  if v.estimationMode = "latest" then setKey dataPoint country latestData
  else if v.estimationMode = "realtime" then setKey dataPoint country oosData
  else if v.estimationMode = "both" then
    setKey (setKey dataPoint country latestData) (country ++ "_OOS") oosData
  else dataPoint

/-- The `map` callback of source lines 847-865: the record of one time point. -/
def buildDataPoint (v : Visualizer) (timePoint : String) : DataPoint :=
  (availableCountries v).foldl (addCountry v timePoint) [("Time", Value.str timePoint)]

/-- Source lines 806-866, `getFilteredData`: the records returned and the visualizer
afterwards (`showOOSDataError` is the only write). -/
def getFilteredData (v : Visualizer) (doc : Sliders) : List DataPoint × Visualizer :=
  let allTimePoints := getAllTimePoints v
  if allTimePoints.length = 0 then ([], v)
  else
    let startIndex := doc.startValue.getD 0
    let endIndex := doc.endValue.getD ((allTimePoints.length : ℤ) - 1)
    let selectedTimePoints :=
      jsSlice allTimePoints startIndex (min (endIndex + 1) allTimePoints.length)
    let records := selectedTimePoints.map (buildDataPoint v)
    match v.selectedCountries with
    | [country] =>
      let hasLatest := (v.countryData country).isSome
      let hasOOS := (v.countryDataOOS country).isSome
      if v.estimationMode = "realtime" ∧ !hasOOS then ([], showOOSDataError v)
      else if v.estimationMode = "both" ∧ (!hasLatest || !hasOOS) then
        ([], showOOSDataError v)
      else (records, v)
    | _ => (records, v)

/-! ## Slider input -/

/-- Which element `document.activeElement` is when `handleRangeChange` runs. -/
inductive ActiveElement where
  | startSlider
  | endSlider
  | other
deriving DecidableEq, Repr

/-- Source lines 671-693, `handleRangeChange`: the sliders afterwards and whether the
labels, the slider fill and the chart were refreshed. -/
def handleRangeChange (v : Visualizer) (doc : RangeSliders) (active : ActiveElement) :
    RangeSliders × Bool :=
  if v.hasOOSError then (doc, false)
  else
    let startVal := doc.startValue
    let endVal := doc.endValue
    if startVal ≥ endVal then
      if active = ActiveElement.startSlider then
        let endVal' := min (startVal + 1) (((getAllTimePoints v).length : ℤ) - 1)
        ({ doc with endValue := endVal' }, true)
      else
        let startVal' := max (endVal - 1) 0
        ({ doc with startValue := startVal' }, true)
    else (doc, true)

/-! ## Recession bands -/

/-- The test `recessionData && recessionData.Recession === 1` (source lines 1055, 1071,
1119, 1134); `none` is `undefined`. -/
def isRecession : Option Value → Bool
  | some (Value.row r) => decide (r.Recession = 1)
  | _ => false

/-- The row `visualizer.countryData[country]?.data.find(row => row.Time === dataPoint.Time)`
(source lines 1048, 1065, 1113, 1128); `none` is `undefined`. A row's `Time` is a string,
so it is strictly equal to `dataPoint.Time` only when that is the same string. -/
def findLatestRow (v : Visualizer) (country : String) (dataPoint : DataPoint) : Option Row :=
  match v.countryData country, getKey dataPoint "Time" with
  | some entry, some (Value.str timePoint) =>
    entry.data.find? (fun row => row.Time = timePoint)
  | _, _ => none

/-- The value `latestCountryData || dataPoint[country]`. -/
def latestOrOwn (v : Visualizer) (country : String) (dataPoint : DataPoint) : Option Value :=
  match findLatestRow v country dataPoint with
  | some row => some (Value.row row)
  | none => getKey dataPoint country

/-- The variable `recessionData` of the single-country branch (source lines 1045-1053);
`estimationMode` is the copy `createChart` stored on the chart configuration. -/
def recessionDataSingle (v : Visualizer) (estimationMode country : String)
    (dataPoint : DataPoint) : Option Value :=
  if estimationMode = "realtime" ∨ estimationMode = "both" then
    latestOrOwn v country dataPoint
  else getKey dataPoint country

/-- The variable `recessionData` of the multi-country branch (source lines 1111-1117). -/
def recessionDataMulti (v : Visualizer) (estimationMode country : String)
    (dataPoint : DataPoint) : Option Value :=
  if estimationMode = "realtime" then latestOrOwn v country dataPoint
  else getKey dataPoint country

/-- The recession flag at view index `i`; `false` past the end of the view. -/
def flagAt (flags : List Bool) (i : ℕ) : Bool := flags.getD i false

/-- The look-ahead loop (source lines 1060-1076, 1123-1139): from `recessionEnd`, step
forward while the next view index is flagged. `fuel` bounds the iterations. -/
def extendRun (flags : List Bool) : ℕ → ℕ → ℕ
  | 0, recessionEnd => recessionEnd
  | fuel + 1, recessionEnd =>
    if recessionEnd < flags.length - 1 then
      if flagAt flags (recessionEnd + 1) then extendRun flags fuel (recessionEnd + 1)
      else recessionEnd
    else recessionEnd

/-- The outer loop `while (i < filteredData.length)` (source lines 1041-1098, 1107-1161):
the pairs `(shadingStart, shadingEnd)` in the order they are drawn. `shadingStart` is
`Math.max(0, recessionStart - 1)`, here subtraction on the naturals. `fuel` bounds the
iterations. -/
def scanBands (flags : List Bool) : ℕ → ℕ → List (ℕ × ℕ)
  | 0, _ => []
  | fuel + 1, i =>
    if i < flags.length then
      if flagAt flags i then
        let recessionStart := i
        let recessionEnd := extendRun flags flags.length i
        let shadingStart := recessionStart - 1
        let shadingEnd := recessionEnd
        (shadingStart, shadingEnd) :: scanBands flags fuel (recessionEnd + 1)
      else scanBands flags fuel (i + 1)
    else []

/-- The band scan over a view with the given flags, started at `i = 0`. Every iteration
advances `i`, so `flags.length` iterations are enough (`scanBands_fuel`). -/
def recessionBands (flags : List Bool) : List (ℕ × ℕ) := scanBands flags flags.length 0

/-- The `for` loop of source lines 1081-1092 and 1144-1155: the indices `j` for which the
cell from `j` to `j + 1` is filled. -/
def shadedCells (band : ℕ × ℕ) : List ℕ := List.range' band.1 (band.2 - band.1)

/-- Bands of the single-country branch of `beforeDatasetsDraw`. -/
def singleCountryBands (v : Visualizer) (estimationMode country : String)
    (filteredData : List DataPoint) : List (ℕ × ℕ) :=
  recessionBands
    (filteredData.map (fun dataPoint =>
      isRecession (recessionDataSingle v estimationMode country dataPoint)))

/-- Bands of one country in the multi-country branch of `beforeDatasetsDraw`. -/
def multiCountryBands (v : Visualizer) (estimationMode country : String)
    (filteredData : List DataPoint) : List (ℕ × ℕ) :=
  recessionBands
    (filteredData.map (fun dataPoint =>
      isRecession (recessionDataMulti v estimationMode country dataPoint)))

/-- The body of the plugin `recessionBands.beforeDatasetsDraw` (source lines 1037-1163),
for a chart that has its layout: the bands drawn, per country. The arguments after `v`
are the copies `createChart` stored on the chart configuration. -/
def beforeDatasetsDraw (v : Visualizer) (estimationMode : String)
    (selectedCountries availableCountries : List String) (filteredData : List DataPoint) :
    List (String × List (ℕ × ℕ)) :=
  match selectedCountries with
  | [country] => [(country, singleCountryBands v estimationMode country filteredData)]
  | _ =>
    availableCountries.map
      (fun country => (country, multiCountryBands v estimationMode country filteredData))

/-! ## Loading and exporting series -/

/-- Source lines 346-359, `processCountryData`: the rows sorted by `parsedDate`, which is
computed from `Time` exactly as `parseTimeString` does; the sort is the stable sort of
`sortTimePoints`. -/
def processCountryData (data : List Row) : List Row :=
  data.insertionSort (fun a b => sortsBefore a.Time b.Time)

/-- What `fetch` delivered: a failure (network error or `!response.ok`) or the text of
the file. -/
inductive FetchResult where
  | failed
  | ok (csvText : String)
deriving DecidableEq, Repr

/-- What `Papa.parse` reports in `results`: whether `results.errors` is non-empty, and
`results.data`. -/
structure ParseResult where
  hasErrors : Bool
  data : List Row
deriving DecidableEq, Repr

/-- The store object `store` with `store[key] = entry`. -/
def storeSet (store : String → Option CountryEntry) (key : String) (entry : CountryEntry) :
    String → Option CountryEntry :=
  fun country => if country = key then some entry else store country

/-- Source lines 258-299, `loadCountryData`: the visualizer once the promise has settled.
`fetched` and `parsed` say what `fetch` and `Papa.parse` produced for the file of
`countryCode`. An entry is written only for a fetched file that parses without errors
into at least one row; a cached entry is returned without a new fetch. -/
def loadCountryData (v : Visualizer) (countryCode : String) (fetched : FetchResult)
    (parsed : ParseResult) : Visualizer :=
  match v.countryData countryCode with
  | some _ => v
  | none =>
    match fetched with
    | FetchResult.failed => v
    | FetchResult.ok csvText =>
      if parsed.hasErrors then v
      else if parsed.data.length = 0 then v
      else
        { v with
          countryData := storeSet v.countryData countryCode
            { data := processCountryData parsed.data, csvText := csvText } }

/-- Source lines 302-344, `loadCountryDataOOS`, in the same way. -/
def loadCountryDataOOS (v : Visualizer) (countryCode : String) (fetched : FetchResult)
    (parsed : ParseResult) : Visualizer :=
  match v.countryDataOOS countryCode with
  | some _ => v
  | none =>
    match fetched with
    | FetchResult.failed => v
    | FetchResult.ok csvText =>
      if parsed.hasErrors then v
      else if parsed.data.length = 0 then v
      else
        { v with
          countryDataOOS := storeSet v.countryDataOOS countryCode
            { data := processCountryData parsed.data, csvText := csvText } }

/-- The characters the regular expression `\s` matches: the ECMAScript white space and
line terminator code points. -/
def jsIsSpace (c : Char) : Bool :=
  let n := c.toNat
  n = 0x09 || n = 0x0A || n = 0x0B || n = 0x0C || n = 0x0D || n = 0x20 || n = 0xA0 ||
    n = 0x1680 || (0x2000 ≤ n && n ≤ 0x200A) || n = 0x2028 || n = 0x2029 || n = 0x202F ||
    n = 0x205F || n = 0x3000 || n = 0xFEFF

/-- `text.replace(/\s+/g, '_')` on character lists; `inRun` says that the character
before was white space. -/
def replaceSpaceRuns : Bool → List Char → List Char
  | _, [] => []
  | inRun, c :: rest =>
    if jsIsSpace c then
      if inRun then replaceSpaceRuns true rest else '_' :: replaceSpaceRuns true rest
    else c :: replaceSpaceRuns false rest

/-- `countryLabel.replace(/\s+/g, '_')` (source lines 563, 567, 572). -/
def fileLabel (countryLabel : String) : String := ⟨replaceSpaceRuns false countryLabel.data⟩

/-- A file handed to the browser for download: the text of the blob and the file name. -/
structure Download where
  content : String
  filename : String
deriving DecidableEq, Repr

/-- The text `dataPoint.Time` contributes to a line of the combined CSV. -/
def timeText (dataPoint : DataPoint) : String :=
  match getKey dataPoint "Time" with
  | some (Value.str s) => s
  | some (Value.row _) => "[object Object]"
  | some Value.null => "null"
  | none => "undefined"

/-- The field of one country in a line of the combined CSV (source lines 625-627), with
its leading comma. `toFixed4` is `Number.prototype.toFixed(4)`. `none` is the `TypeError`
of calling `toFixed` on `undefined`, which a non-empty string under the key causes. -/
def countryField (toFixed4 : ℚ → String) (dataPoint : DataPoint) (country : String) :
    Option String :=
  match getKey dataPoint country with
  | some (Value.row r) => some ("," ++ toFixed4 r.RecessionRisk_p50)
  | some (Value.str s) => if s = "" then some "," else none
  | some Value.null => some ","
  | none => some ","

/-- Appends the fields of the countries, in order, to `line`; `none` once a field throws. -/
def appendFields (toFixed4 : ℚ → String) (dataPoint : DataPoint) :
    List String → String → Option String
  | [], line => some line
  | country :: rest, line =>
    match countryField toFixed4 dataPoint country with
    | some field => appendFields toFixed4 dataPoint rest (line ++ field)
    | none => none

/-- Appends the lines of the records, in order, to `csv` (source lines 622-630). -/
def appendLines (toFixed4 : ℚ → String) (selectedCountries : List String) :
    List DataPoint → String → Option String
  | [], csv => some csv
  | dataPoint :: rest, csv =>
    match appendFields toFixed4 dataPoint selectedCountries (csv ++ timeText dataPoint) with
    | some line => appendLines toFixed4 selectedCountries rest (line ++ "\n")
    | none => none

/-- Source lines 609-633, `generateCombinedCSV`: the text (`none` when the function
throws) and the visualizer afterwards (`getFilteredData` may raise the error state). -/
def generateCombinedCSV (toFixed4 : ℚ → String) (v : Visualizer) (doc : Sliders) :
    Option String × Visualizer :=
  let filtered := getFilteredData v doc
  let filteredData := filtered.1
  if filteredData.length = 0 then (some "Time\n", filtered.2)
  else
    let header :=
      v.selectedCountries.foldl
        (fun csv country => csv ++ ",RecessionRisk_" ++ country ++ "_p50") "Time"
    (appendLines toFixed4 v.selectedCountries filteredData (header ++ "\n"), filtered.2)

/-- Source lines 550-607, `downloadCSV`, in a browser that supports `link.download`: the
file offered (`none` when the function throws before offering one) and the visualizer
afterwards. -/
def downloadCSV (toFixed4 : ℚ → String) (v : Visualizer) (doc : Sliders) :
    Option Download × Visualizer :=
  match v.selectedCountries with
  | [country] =>
    let countryLabel := country
    if v.estimationMode = "realtime" then
      match v.countryDataOOS country with
      | some entry =>
        (some { content := entry.csvText,
                filename := "recession_risk_" ++ fileLabel countryLabel ++ "_realtime.csv" }, v)
      | none =>
        match v.countryData country with
        | some entry =>
          (some { content := entry.csvText,
                  filename := "recession_risk_" ++ fileLabel countryLabel ++ "_latest.csv" }, v)
        | none => (none, v)
    else
      match v.countryData country with
      | some entry =>
        (some { content := entry.csvText,
                filename := "recession_risk_" ++ fileLabel countryLabel ++ "_latest.csv" }, v)
      | none => (none, v)
  | _ =>
    let combined := generateCombinedCSV toFixed4 v doc
    let modeLabel := if v.estimationMode = "realtime" then "_realtime" else "_latest"
    let countryCodes := "_".intercalate v.selectedCountries
    let filename := "recession_risk_" ++ countryCodes ++ modeLabel ++ ".csv"
    match combined.1 with
    | some combinedCSV => (some { content := combinedCSV, filename := filename }, combined.2)
    | none => (none, combined.2)

/-! ## Derived definitions used in the statements and proofs -/

/-- The condition under which `getFilteredData` calls `showOOSDataError` (source lines
816-829), once there is at least one time point. -/
def raisesMissingData (v : Visualizer) : Bool :=
  match v.selectedCountries with
  | [country] =>
    let hasLatest := (v.countryData country).isSome
    let hasOOS := (v.countryDataOOS country).isSome
    (decide (v.estimationMode = "realtime") && !hasOOS) ||
      (decide (v.estimationMode = "both") && (!hasLatest || !hasOOS))
  | _ => false

/-- The slice of the unified time points that `getFilteredData` maps over (source lines
810-813). -/
def selectedTimePoints (v : Visualizer) (doc : Sliders) : List String :=
  let allTimePoints := getAllTimePoints v
  jsSlice allTimePoints (doc.startValue.getD 0)
    (min (doc.endValue.getD ((allTimePoints.length : ℤ) - 1) + 1) allTimePoints.length)

/-- The property assignments the `forEach` body performs for one country, in order:
`addCountry` is the replay of this list (see `addCountry_eq_assign`). -/
def countryAssignments (v : Visualizer) (timePoint : String) (country : String) :
    List (String × Value) :=
  let latestData :=
    match v.countryData country with
    | some entry => findRow entry.data timePoint
    | none => Value.null
  let oosData :=
    match v.countryDataOOS country with
    | some entry => findRow entry.data timePoint
    | none => Value.null
  if v.estimationMode = "latest" then [(country, latestData)]
  else if v.estimationMode = "realtime" then [(country, oosData)]
  else if v.estimationMode = "both" then [(country, latestData), (country ++ "_OOS", oosData)]
  else []

/-- Replays a list of property assignments on a record. -/
def assignAll (dataPoint : DataPoint) (assignments : List (String × Value)) : DataPoint :=
  assignments.foldl (fun d kv => setKey d kv.1 kv.2) dataPoint

/-- What the claim calls the sub-record for a series and a time label: the row of the
series whose `Time` is the label (the first one, should the series repeat a label), or
`null` when the series has no such row. -/
def IsSubRecord (data : List Row) (timePoint : String) (val : Value) : Prop :=
  (∃ row, data.find? (fun r => r.Time = timePoint) = some row ∧ row ∈ data ∧
      row.Time = timePoint ∧ val = Value.row row) ∨
    ((∀ row ∈ data, row.Time ≠ timePoint) ∧ val = Value.null)

/-- The value `latestData || null` of source lines 851 and 855. -/
def latestValue (v : Visualizer) (timePoint country : String) : Value :=
  match v.countryData country with
  | some entry => findRow entry.data timePoint
  | none => Value.null

/-- The value `oosData || null` of source lines 852 and 857. -/
def oosValue (v : Visualizer) (timePoint country : String) : Value :=
  match v.countryDataOOS country with
  | some entry => findRow entry.data timePoint
  | none => Value.null

/-- A label of the form `<English month name> <YYYY>` with `1980 ≤ YYYY ≤ 2029`, the
month name being one that `monthIndex` reads. -/
def WellFormedLabel (t : String) : Prop :=
  ∃ (m : String) (y : ℕ), (monthIndex m).isSome = true ∧ 1980 ≤ y ∧ y ≤ 2029 ∧
    t = m ++ " " ++ toString y

/-- Chronological order of two labels by the (year, month) that `parseTimeString`
computes; both labels have to parse. -/
def ChronoLE (a b : String) : Prop :=
  ∃ dateA dateB, parseTimeString a = some dateA ∧ parseTimeString b = some dateB ∧
    (dateA.year < dateB.year ∨ (dateA.year = dateB.year ∧ dateA.month ≤ dateB.month))

/-- The sort key of a label: the value of its date, `0` for an Invalid Date. On labels
that parse, `sortsBefore a b` is `timeKey a ≤ timeKey b`. -/
def timeKey (t : String) : ℤ := ((parseTimeString t).map dateValue).getD 0

/-- A maximal run of flagged view indices `s..e`: every index from `s` to `e` is flagged,
the index before `s` (if any) and the index after `e` (if any) are not. -/
def IsMaximalRun (flags : List Bool) (s e : ℕ) : Prop :=
  s ≤ e ∧ e < flags.length ∧ (∀ j, s ≤ j → j ≤ e → flagAt flags j = true) ∧
    (s = 0 ∨ flagAt flags (s - 1) = false) ∧ flagAt flags (e + 1) = false

/-- The bands `bands` are those of the maximal runs of `flags`: each maximal run `s..e`
has the band `(max 0 (s - 1), e)` (the subtraction is that of the naturals), and only
once, the bands being listed by strictly increasing end; every band is that of a maximal
run; and a cell `j` is filled exactly when `max 0 (s - 1) ≤ j < e` for a maximal run
`s..e`. -/
def BandsMatchRuns (flags : List Bool) (bands : List (ℕ × ℕ)) : Prop :=
  bands.Pairwise (fun b c => b.2 < c.2) ∧
  (∀ s e, IsMaximalRun flags s e → (s - 1, e) ∈ bands) ∧
  (∀ b ∈ bands, ∃ s, IsMaximalRun flags s b.2 ∧ b.1 = s - 1) ∧
  (∀ j, (∃ b ∈ bands, j ∈ shadedCells b) ↔
    ∃ s e, IsMaximalRun flags s e ∧ s - 1 ≤ j ∧ j < e)

/-- The chart with the drag coordinates `startX` and `endX` set to two pixels. -/
def withDrag (chart : Chart) (startX endX : ℚ) : Chart :=
  { chart with
    timeSelection := { chart.timeSelection with startX := some startX, endX := some endX } }

/-- What a commit does to the sliders, and whether it asks for a recomputation, as a
function of the two indices `getDataIndexFromX` gave (`none` is `null`). -/
def commitOutcome (chart : Chart) (doc : RangeSliders) (startIndex endIndex : Option ℤ) :
    RangeSliders × Bool :=
  match startIndex, endIndex with
  | some i, some j =>
    if i ≠ j then
      ({ doc with startValue := (committedRange chart doc i j).1,
                  endValue := (committedRange chart doc i j).2 }, chart.hasVisualizer)
    else (doc, false)
  | _, _ => (doc, false)

/-! ## Pointer events -/

/-- What the handlers created by `setupCanvasEvents` work on: the chart (with its
`timeSelection`), the closure variable `isMouseDown` (source line 32) and the two range
sliders. -/
structure DragState where
  chart : Chart
  isMouseDown : Bool
  sliders : RangeSliders
deriving DecidableEq, Repr

/-- A pointer event as the handlers see it: `x` is `e.clientX - rect.left` and
`rectWidth` is `rect.width`, for `rect = canvas.getBoundingClientRect()`. -/
inductive PointerEvent where
  | mousedown (x : ℚ)
  | mousemove (x rectWidth : ℚ)
  | mouseup (rectWidth : ℚ)
  | mouseleave
deriving DecidableEq, Repr

/-- Source lines 41-54, `canvas._chartMouseDown`. -/
def chartMouseDown (s : DragState) (x : ℚ) : DragState :=
  { s with
    isMouseDown := true,
    chart :=
      { s.chart with
        timeSelection :=
          { s.chart.timeSelection with isSelecting := true, startX := some x, endX := some x } } }

/-- Source lines 57-70, `canvas._chartMouseMove`. -/
def chartMouseMove (s : DragState) (x rectWidth : ℚ) : DragState :=
  if s.isMouseDown && s.chart.timeSelection.isSelecting then
    let clampedX := max 0 (min x rectWidth)
    { s with
      chart :=
        { s.chart with
          timeSelection := { s.chart.timeSelection with endX := some clampedX } } }
  else s

/-- Source lines 73-82, `canvas._chartMouseUp`: the drag ends and `applySelection` runs. -/
def chartMouseUp (s : DragState) (rectWidth : ℚ) : DragState :=
  if s.isMouseDown && s.chart.timeSelection.isSelecting then
    let released : Chart :=
      { s.chart with timeSelection := { s.chart.timeSelection with isSelecting := false } }
    let applied := applySelection released rectWidth s.sliders
    { chart := applied.chart, isMouseDown := false, sliders := applied.sliders }
  else s

/-- Source lines 84-87, `canvas._chartMouseLeave`: the drag goes on. -/
def chartMouseLeave (s : DragState) : DragState := s

/-- The handler that the listeners of source lines 90-93 run for an event. -/
def handleEvent (s : DragState) : PointerEvent → DragState
  | PointerEvent.mousedown x => chartMouseDown s x
  | PointerEvent.mousemove x rectWidth => chartMouseMove s x rectWidth
  | PointerEvent.mouseup rectWidth => chartMouseUp s rectWidth
  | PointerEvent.mouseleave => chartMouseLeave s

/-- The state when the handlers are set up on a chart that `beforeInit` has initialised. -/
def initialDragState (chart : Chart) (sliders : RangeSliders) : DragState :=
  { chart := beforeInit chart, isMouseDown := false, sliders := sliders }

/-- The state after a sequence of pointer events. -/
def runEvents (s : DragState) (events : List PointerEvent) : DragState :=
  events.foldl handleEvent s
/-- No stale coordinates: when no drag is under way, both drag coordinates are `null`. -/
def NoStaleDrag (s : DragState) : Prop :=
  s.chart.timeSelection.isSelecting = false →
    s.chart.timeSelection.startX = none ∧ s.chart.timeSelection.endX = none

/-! ## Listener registration -/

/-- The two objects the plugin registers listeners on. -/
inductive ListenerTarget where
  | canvas
  | document
deriving DecidableEq, Repr

/-- The four event types the plugin listens to. -/
inductive EventType where
  | mousedown
  | mousemove
  | mouseup
  | mouseleave
deriving DecidableEq, Repr

/-- A handler function object: the closure for `kind` created by the `generation`-th call
of `setupCanvasEvents`. Two closures are the same object only when both agree. -/
structure Handler where
  generation : ℕ
  kind : EventType
deriving DecidableEq, Repr

/-- A registered listener: target, event type and handler. -/
structure Listener where
  target : ListenerTarget
  event : EventType
  handler : Handler
deriving DecidableEq, Repr

/-- The handlers kept on the canvas element (`canvas._chartMouseDown` and the other
three); `none` is `undefined`. -/
structure CanvasHandlers where
  chartMouseDown : Option Handler
  chartMouseMove : Option Handler
  chartMouseUp : Option Handler
  chartMouseLeave : Option Handler
deriving DecidableEq, Repr

/-- The state `setupCanvasEvents`, `afterInit` and `beforeDestroy` work on: the chart,
its canvas if it has one, the listeners registered on the canvas and on the document, and
the number of `setupCanvasEvents` calls so far that created closures. -/
structure PluginState where
  chart : Chart
  canvas : Option CanvasHandlers
  listeners : List Listener
  generations : ℕ
deriving DecidableEq, Repr

/-- `target.addEventListener(event, handler)`: a listener that is already registered is
not registered twice. -/
def addEventListener (listeners : List Listener) (target : ListenerTarget)
    (event : EventType) (handler : Handler) : List Listener :=
  let listener : Listener := { target := target, event := event, handler := handler }
  if listener ∈ listeners then listeners else listeners ++ [listener]

/-- `target.removeEventListener(event, handler)`; with `handler` `undefined` nothing is
removed. -/
def removeEventListener (listeners : List Listener) (target : ListenerTarget)
    (event : EventType) (handler : Option Handler) : List Listener :=
  match handler with
  | none => listeners
  | some h =>
    listeners.filter
      (fun l => !decide (l = { target := target, event := event, handler := h }))

/-- The four `removeEventListener` calls of source lines 35-38 and 183-186. -/
def removeChartListeners (listeners : List Listener) (canvas : CanvasHandlers) :
    List Listener :=
  let l1 := removeEventListener listeners ListenerTarget.canvas EventType.mousedown
    canvas.chartMouseDown
  let l2 := removeEventListener l1 ListenerTarget.document EventType.mousemove
    canvas.chartMouseMove
  let l3 := removeEventListener l2 ListenerTarget.document EventType.mouseup
    canvas.chartMouseUp
  removeEventListener l3 ListenerTarget.canvas EventType.mouseleave canvas.chartMouseLeave

/-- Source lines 22-94, `setupCanvasEvents`, as far as listeners go: without a canvas
nothing happens; otherwise the handlers kept on the canvas are deregistered, four new
closures are created and kept on the canvas, and they are registered. -/
def setupCanvasEvents (s : PluginState) : PluginState :=
  match s.canvas with
  | none => s
  | some canvas =>
    let removed := removeChartListeners s.listeners canvas
    let g := s.generations
    let created : CanvasHandlers :=
      { chartMouseDown := some { generation := g, kind := EventType.mousedown },
        chartMouseMove := some { generation := g, kind := EventType.mousemove },
        chartMouseUp := some { generation := g, kind := EventType.mouseup },
        chartMouseLeave := some { generation := g, kind := EventType.mouseleave } }
    let l1 := addEventListener removed ListenerTarget.canvas EventType.mousedown
      { generation := g, kind := EventType.mousedown }
    let l2 := addEventListener l1 ListenerTarget.document EventType.mousemove
      { generation := g, kind := EventType.mousemove }
    let l3 := addEventListener l2 ListenerTarget.document EventType.mouseup
      { generation := g, kind := EventType.mouseup }
    let l4 := addEventListener l3 ListenerTarget.canvas EventType.mouseleave
      { generation := g, kind := EventType.mouseleave }
    { s with canvas := some created, listeners := l4, generations := g + 1 }

/-- Writes `chart.timeSelection.eventsAttached`. -/
def setEventsAttached (s : PluginState) (value : Bool) : PluginState :=
  { s with
    chart :=
      { s.chart with
        timeSelection := { s.chart.timeSelection with eventsAttached := value } } }

/-- Source lines 15-20, `afterInit`. -/
def afterInit (s : PluginState) : PluginState :=
  if !s.chart.timeSelection.eventsAttached then
    setEventsAttached (setupCanvasEvents s) true
  else s

/-- Source lines 179-189, `beforeDestroy`. -/
def beforeDestroy (s : PluginState) : PluginState :=
  match s.canvas with
  | some canvas =>
    if s.chart.timeSelection.eventsAttached then
      setEventsAttached { s with listeners := removeChartListeners s.listeners canvas } false
    else s
  | none => s

/-- The registrations of the handlers kept on the canvas: mousedown and mouseleave on the
canvas, mousemove and mouseup on the document. -/
def chartListeners (canvas : CanvasHandlers) : List Listener :=
  (canvas.chartMouseDown.toList.map
      (fun h => { target := ListenerTarget.canvas, event := EventType.mousedown, handler := h })) ++
  (canvas.chartMouseMove.toList.map
      (fun h => { target := ListenerTarget.document, event := EventType.mousemove, handler := h })) ++
  (canvas.chartMouseUp.toList.map
      (fun h => { target := ListenerTarget.document, event := EventType.mouseup, handler := h })) ++
  (canvas.chartMouseLeave.toList.map
      (fun h => { target := ListenerTarget.canvas, event := EventType.mouseleave, handler := h }))

/-- The listener is one of this chart's: the registration of a handler kept on the
chart's canvas. -/
def IsChartListener (s : PluginState) (l : Listener) : Prop :=
  ∃ canvas, s.canvas = some canvas ∧ l ∈ chartListeners canvas

/-! ## Changing the selection -/

/-- A checkbox of the country dropdown: its `value` (a country code) and whether it is
checked. -/
structure Checkbox where
  value : String
  checked : Bool
deriving DecidableEq, Repr

/-- What lies outside the program when countries are loaded: for each country code what
`fetch` and `Papa.parse` give for its Latest file and for its out-of-sample file, and
whether the page has the element `both-option`. -/
structure LoadEnv where
  latestFile : String → FetchResult × ParseResult
  oosFile : String → FetchResult × ParseResult
  hasBothOption : Bool

/-- The state `handleCountrySelectionChange` works on. -/
structure Page where
  visualizer : Visualizer
  sliders : RangeSliders
  checkboxes : List Checkbox

/-- The slider values as `getFilteredData` reads them. -/
def readSliders (sliders : RangeSliders) : Sliders :=
  { startValue := some sliders.startValue, endValue := some sliders.endValue }

/-- Source lines 530-548, `updateEstimationMethodAvailability`: with more than one
country selected the mode `both` is switched to `latest`. -/
def updateEstimationMethodAvailability (hasBothOption : Bool) (v : Visualizer) :
    Visualizer :=
  if hasBothOption then
    if v.selectedCountries.length > 1 then
      if v.estimationMode = "both" then { v with estimationMode := "latest" } else v
    else v
  else v

/-- Source lines 651-669, `updateVisualRange`, as far as the visualizer goes: the call of
`getFilteredData` may raise the error state; the rest sets style properties. -/
def updateVisualRange (v : Visualizer) (sliders : RangeSliders) : Visualizer :=
  if v.hasOOSError then v else (getFilteredData v (readSliders sliders)).2

/-- Source lines 730-745, `updateRangeSliders`: the maximum of both sliders and the value
of the end slider become the last index; `updateRangeLabels` only writes label text. -/
def updateRangeSliders (v : Visualizer) (sliders : RangeSliders) :
    Visualizer × RangeSliders :=
  let allTimePoints := getAllTimePoints v
  if allTimePoints.length = 0 then (v, sliders)
  else
    let updated : RangeSliders :=
      { sliders with
        max := (allTimePoints.length : ℤ) - 1, endValue := (allTimePoints.length : ℤ) - 1 }
    (updateVisualRange v updated, updated)

/-- Source lines 868-1188, `createChart`, as far as the visualizer goes: nothing is built
for an empty view or in the error state; otherwise the canvas is restored and a chart is
built in place of the old one. -/
def createChart (v : Visualizer) (doc : Sliders) : Visualizer :=
  let filtered := getFilteredData v doc
  if filtered.1.length = 0 ∨ filtered.2.hasOOSError = true then filtered.2
  else { hideOOSDataError filtered.2 with chartAlive := true }

/-- Source lines 478-528, `handleCountrySelectionChange`, once its loads have settled
(`showStats` and `showHeaderStats` only write text). -/
def handleCountrySelectionChange (env : LoadEnv) (p : Page) : Page :=
  let newSelection := (p.checkboxes.filter (fun cb => cb.checked)).map (fun cb => cb.value)
  if newSelection.length = 0 then p
  else
    let v := p.visualizer
    let v1 :=
      (newSelection.filter (fun country => (v.countryData country).isNone)).foldl
        (fun w country =>
          loadCountryData w country (env.latestFile country).1 (env.latestFile country).2) v
    let v2 :=
      (newSelection.filter (fun country => (v.countryDataOOS country).isNone)).foldl
        (fun w country =>
          loadCountryDataOOS w country (env.oosFile country).1 (env.oosFile country).2) v1
    let v3 : Visualizer :=
      { v2 with
        selectedCountries :=
          newSelection.filter (fun country => (v2.countryData country).isSome) }
    let checkboxes :=
      p.checkboxes.map (fun cb =>
        if cb.value ∈ newSelection ∧ (v3.countryData cb.value).isNone then
          { cb with checked := false }
        else cb)
    let v4 := updateEstimationMethodAvailability env.hasBothOption v3
    let ranged := updateRangeSliders v4 p.sliders
    let v5 := hideOOSDataError ranged.1
    let v6 := createChart v5 (readSliders ranged.2)
    { visualizer := v6, sliders := ranged.2, checkboxes := checkboxes }

/-! ## Chart data -/

/-- What `prepareChartData` derives from the records before it builds the datasets
(source lines 1190-1199): the labels and `availableCountries`, which it also stores in
`this.currentAvailableCountries`. -/
structure ChartDataHead where
  labels : List (Option Value)
  availableCountries : List String
deriving DecidableEq, Repr

/-- Source lines 1190-1199, the head of `prepareChartData`; `row[country] !== undefined`
is "the record has the key". The datasets, built from these two lists and the records,
are not modelled. -/
def prepareChartData (v : Visualizer) (filteredData : List DataPoint) : ChartDataHead :=
  { labels := filteredData.map (fun row => getKey row "Time"),
    availableCountries :=
      v.selectedCountries.filter (fun country =>
        filteredData.any (fun row => (getKey row country).isSome)) }

/-! ## The shape of the combined CSV -/

/-- The texts of a list, one after the other. -/
def concatAll (parts : List String) : String := parts.foldr (fun part rest => part ++ rest) ""

/-- The header field of a country, with its leading comma. -/
def headerField (country : String) : String := ",RecessionRisk_" ++ country ++ "_p50"

/-- The value of a country in a data line: the formatted `RecessionRisk_p50` of the
record's sub-record for the country, empty when the record has none (no key, or `null`). -/
def fieldValue (toFixed4 : ℚ → String) (dataPoint : DataPoint) (country : String) : String :=
  match getKey dataPoint country with
  | some (Value.row r) => toFixed4 r.RecessionRisk_p50
  | _ => ""

/-- A data line: the record's `Time`, one comma-prefixed field per country, a line feed. -/
def csvLine (toFixed4 : ℚ → String) (countries : List String) (dataPoint : DataPoint) :
    String :=
  timeText dataPoint ++
    concatAll (countries.map (fun country => "," ++ fieldValue toFixed4 dataPoint country)) ++
    "\n"

/-! ## Sample data -/

/-- A chart whose plot spans the pixels 0..600 and whose view holds three records. -/
def sampleChart : Chart :=
  { scalesX := some { left := 0, right := 600 },
    filteredData := some
      [[("Time", Value.str "Jan 2020")], [("Time", Value.str "Feb 2020")],
       [("Time", Value.str "Mar 2020")]],
    timeSelection :=
      { isSelecting := false, startX := none, endX := none, eventsAttached := false } }

/-- A store object built from its list of entries. -/
def storeOf (entries : List (String × CountryEntry)) : String → Option CountryEntry :=
  fun country => entries.lookup country

/-- A Latest series for the sample stores. -/
def sampleLatest : CountryEntry :=
  { data :=
      [{ Time := "Dec 2019", RecessionRisk_p05 := 1 / 20, RecessionRisk_p50 := 1 / 10,
         RecessionRisk_p95 := 1 / 5, Recession := 0 },
       { Time := "Jan 2020", RecessionRisk_p05 := 1 / 10, RecessionRisk_p50 := 1 / 4,
         RecessionRisk_p95 := 1 / 2, Recession := 0 },
       { Time := "Feb 2020", RecessionRisk_p05 := 1 / 2, RecessionRisk_p50 := 3 / 4,
         RecessionRisk_p95 := 9 / 10, Recession := 1 }],
    csvText := "Time,RecessionRisk_p05,RecessionRisk_p50,RecessionRisk_p95,Recession\n" ++
      "Dec 2019,0.05,0.1,0.2,0\nJan 2020,0.1,0.25,0.5,0\nFeb 2020,0.5,0.75,0.9,1\n" }

/-- An out-of-sample series for the sample stores. -/
def sampleOOS : CountryEntry :=
  { data :=
      [{ Time := "Jan 2020", RecessionRisk_p05 := 1 / 10, RecessionRisk_p50 := 1 / 5,
         RecessionRisk_p95 := 2 / 5, Recession := 0 },
       { Time := "Feb 2020", RecessionRisk_p05 := 2 / 5, RecessionRisk_p50 := 3 / 5,
         RecessionRisk_p95 := 4 / 5, Recession := 1 },
       { Time := "Mar 2020", RecessionRisk_p05 := 3 / 5, RecessionRisk_p50 := 4 / 5,
         RecessionRisk_p95 := 19 / 20, Recession := 1 }],
    csvText := "Time,RecessionRisk_p05,RecessionRisk_p50,RecessionRisk_p95,Recession\n" ++
      "Jan 2020,0.1,0.2,0.4,0\nFeb 2020,0.4,0.6,0.8,1\nMar 2020,0.6,0.8,0.95,1\n" }

/-- A visualizer over the given stores, with a live chart and no error shown. -/
def sampleVisualizer (latest oos : List (String × CountryEntry))
    (selected : List String) (mode : String) : Visualizer :=
  { countryData := storeOf latest, countryDataOOS := storeOf oos,
    selectedCountries := selected, estimationMode := mode,
    hasOOSError := false, chartAlive := true, container := Container.canvas }

/-- US selected, its Latest series loaded, no out-of-sample series. -/
def latestOnlyUS (mode : String) : Visualizer :=
  sampleVisualizer [("US", sampleLatest)] [] ["US"] mode

/-- US selected, its out-of-sample series loaded, no Latest series. -/
def oosOnlyUS (mode : String) : Visualizer :=
  sampleVisualizer [] [("US", sampleOOS)] ["US"] mode

/-- The sliders at the full range of a three-point sequence. -/
def fullRange3 : Sliders := { startValue := some 0, endValue := some 2 }

/-- US and DE selected; both have a Latest series, only US has an out-of-sample one. -/
def usAndDE (mode : String) : Visualizer :=
  sampleVisualizer [("US", sampleLatest), ("DE", sampleLatest)] [("US", sampleOOS)]
    ["US", "DE"] mode

/-- The sliders at the full range of a four-point sequence. -/
def fullRange4 : Sliders := { startValue := some 0, endValue := some 3 }

/-- The sliders at the two middle points of a four-point sequence. -/
def middleRange4 : Sliders := { startValue := some 1, endValue := some 2 }

/-- A chart whose plot spans the pixels 0..600, with a view of 100 records, in the middle
of a drag from pixel 50 to pixel 200. -/
def dragChart : Chart :=
  { scalesX := some { left := 0, right := 600 },
    filteredData := some (List.replicate 100 [("Time", Value.str "Jan 2020")]),
    timeSelection :=
      { isSelecting := false, startX := some 50, endX := some 200, eventsAttached := true } }

/-- The sliders at the full range `0..99` of a hundred time points. -/
def fullRange100 : RangeSliders := { startValue := 0, endValue := 99, max := 99 }

/-- The chart `dragChart` with the drag released where it was pressed, at pixel 50. -/
def clickChart : Chart :=
  { dragChart with
    timeSelection :=
      { isSelecting := false, startX := some 50, endX := some 50, eventsAttached := true } }

/-- Both sliders at the last of three time points. -/
def slidersAtRightEdge : RangeSliders := { startValue := 2, endValue := 2, max := 2 }

/-- Both sliders at the first of three time points. -/
def slidersAtLeftEdge : RangeSliders := { startValue := 0, endValue := 0, max := 2 }

/-- US selected with both of its series loaded. The Latest series ends at `Feb 2020`,
the out-of-sample series at `Mar 2020`. -/
def usBothKinds (mode : String) : Visualizer :=
  sampleVisualizer [("US", sampleLatest)] [("US", sampleOOS)] ["US"] mode

/-- A visualizer before any file is loaded, with US selected. -/
def emptyStoreUS (mode : String) : Visualizer := sampleVisualizer [] [] ["US"] mode

/-- The rows `Papa.parse` gives for `sampleLatest.csvText`. -/
def sampleParsed : ParseResult := { hasErrors := false, data := sampleLatest.data }

/-- A stand-in for `Number.prototype.toFixed(4)` in the samples. -/
def sampleToFixed4 (_q : ℚ) : String := "0.0000"

/-- A chart on a canvas 600 pixels wide whose plot spans the pixels 40..560, with three
records in view, in the middle of a drag that started at pixel 300. -/
def insetDrag : DragState :=
  { chart :=
      { scalesX := some { left := 40, right := 560 },
        filteredData := some
          [[("Time", Value.str "Jan 2020")], [("Time", Value.str "Feb 2020")],
           [("Time", Value.str "Mar 2020")]],
        timeSelection :=
          { isSelecting := true, startX := some 300, endX := some 300,
            eventsAttached := true } },
    isMouseDown := true,
    sliders := { startValue := 0, endValue := 2, max := 2 } }

/-- A chart fresh from `beforeInit`, on a canvas without handlers, nothing registered. -/
def freshPlugin : PluginState :=
  { chart := beforeInit sampleChart,
    canvas := some
      { chartMouseDown := none, chartMouseMove := none, chartMouseUp := none,
        chartMouseLeave := none },
    listeners := [],
    generations := 0 }

/-- No file can be fetched. -/
def offlineEnv : LoadEnv :=
  { latestFile := fun _ => (FetchResult.failed, { hasErrors := false, data := [] }),
    oosFile := fun _ => (FetchResult.failed, { hasErrors := false, data := [] }),
    hasBothOption := true }

/-- The sample Latest file is served for every country, no out-of-sample file. -/
def sampleEnv : LoadEnv :=
  { latestFile := fun _ => (FetchResult.ok sampleLatest.csvText, sampleParsed),
    oosFile := fun _ => (FetchResult.failed, { hasErrors := false, data := [] }),
    hasBothOption := true }

/-- US and DE shown with both Latest series loaded, and the user has just unticked the
last checkbox. -/
def allUnticked : Page :=
  { visualizer := usAndDE "latest",
    sliders := { startValue := 0, endValue := 3, max := 3 },
    checkboxes := [{ value := "US", checked := false }, { value := "DE", checked := false },
      { value := "FRA", checked := false }] }

/-- US shown, and the user has just ticked FRA as well. -/
def fraTicked : Page :=
  { visualizer := latestOnlyUS "latest",
    sliders := { startValue := 0, endValue := 2, max := 2 },
    checkboxes := [{ value := "US", checked := true }, { value := "DE", checked := false },
      { value := "FRA", checked := true }] }

/-! ## Theorems -/

/-! ### Pixel-to-index mapping -/

theorem mathRound_mono {a b : ℚ} (h : a ≤ b) : mathRound a ≤ mathRound b := by
  unfold mathRound
  exact Int.floor_mono (by linarith)

theorem dataIndexOnScale_range (xScale : XScale) (len : ℕ) (x : ℚ) (hlen : 1 ≤ len) :
    ∃ i : ℤ, dataIndexOnScale xScale len x = some i ∧ 0 ≤ i ∧ i ≤ (len : ℤ) - 1 := by
  have hne : len ≠ 0 := by omega
  have h0 : (0 : ℤ) ≤ (len : ℤ) - 1 := by omega
  refine ⟨_, by simp only [dataIndexOnScale, hne, if_false]; rfl, le_max_left _ _, ?_⟩
  exact max_le h0 (min_le_right _ _)

theorem dataIndexOnScale_mono (xScale : XScale) (len : ℕ) (x1 x2 : ℚ)
    (hscale : xScale.left < xScale.right) (hx : x1 ≤ x2) (i1 i2 : ℤ)
    (h1 : dataIndexOnScale xScale len x1 = some i1)
    (h2 : dataIndexOnScale xScale len x2 = some i2) : i1 ≤ i2 := by
  unfold dataIndexOnScale at h1 h2
  by_cases hlen : len = 0
  · simp [hlen] at h1
  · simp only [hlen, if_false, Option.some.injEq] at h1 h2
    subst h1 h2
    have hw : (0 : ℚ) < xScale.right - xScale.left := by linarith
    have hn : (0 : ℚ) ≤ (((len : ℤ) - 1 : ℤ) : ℚ) := by
      have : (0 : ℤ) ≤ (len : ℤ) - 1 := by omega
      exact_mod_cast this
    have hc : max xScale.left (min x1 xScale.right) ≤ max xScale.left (min x2 xScale.right) :=
      max_le_max le_rfl (min_le_min hx le_rfl)
    have hr : (max xScale.left (min x1 xScale.right) - xScale.left) / (xScale.right - xScale.left)
        ≤ (max xScale.left (min x2 xScale.right) - xScale.left) / (xScale.right - xScale.left) :=
      div_le_div_of_nonneg_right (by linarith) hw.le
    exact max_le_max le_rfl (min_le_min (mathRound_mono (mul_le_mul_of_nonneg_right hr hn)) le_rfl)


/-- Claim C1. For every pixel coordinate `x`, every plot with `left < right` and every view
of `n ≥ 1` records, `getDataIndexFromX` returns an index (not `null`) that lies in
`[0, n - 1]`. -/
theorem getDataIndexFromX_in_range (chart : Chart) (xScale : XScale) (data : List DataPoint)
    (x : ℚ) (hscale : chart.scalesX = some xScale) (_hplot : xScale.left < xScale.right)
    (hdata : chart.filteredData = some data) (hn : 1 ≤ data.length) :
    ∃ i : ℤ, getDataIndexFromX chart x = some i ∧ 0 ≤ i ∧ i ≤ (data.length : ℤ) - 1 := by
  simp only [getDataIndexFromX, hscale, hdata, Option.getD_some]
  exact dataIndexOnScale_range xScale data.length x hn

theorem getDataIndexFromX_in_range_witness :
    ∃ i : ℤ, getDataIndexFromX sampleChart 450 = some i ∧ 0 ≤ i ∧ i ≤ ((3 : ℕ) : ℤ) - 1 :=
  getDataIndexFromX_in_range sampleChart { left := 0, right := 600 } _ 450 rfl
    (by norm_num) rfl (by decide)

/-- Claim C2. `getDataIndexFromX` is monotone in the pixel coordinate: on a plot with
`left < right` and a view of `n ≥ 1` records, both calls return an index and
`x1 ≤ x2` gives `getDataIndexFromX x1 ≤ getDataIndexFromX x2`. -/
theorem getDataIndexFromX_monotone (chart : Chart) (xScale : XScale) (data : List DataPoint)
    (x1 x2 : ℚ) (hscale : chart.scalesX = some xScale) (hplot : xScale.left < xScale.right)
    (hdata : chart.filteredData = some data) (hn : 1 ≤ data.length) (hx : x1 ≤ x2) :
    ∃ i1 i2 : ℤ, getDataIndexFromX chart x1 = some i1 ∧
      getDataIndexFromX chart x2 = some i2 ∧ i1 ≤ i2 := by
  simp only [getDataIndexFromX, hscale, hdata, Option.getD_some]
  obtain ⟨i1, h1, -, -⟩ := dataIndexOnScale_range xScale data.length x1 hn
  obtain ⟨i2, h2, -, -⟩ := dataIndexOnScale_range xScale data.length x2 hn
  exact ⟨i1, i2, h1, h2, dataIndexOnScale_mono xScale data.length x1 x2 hplot hx i1 i2 h1 h2⟩

theorem getDataIndexFromX_monotone_witness :
    ∃ i1 i2 : ℤ, getDataIndexFromX sampleChart 100 = some i1 ∧
      getDataIndexFromX sampleChart 450 = some i2 ∧ i1 ≤ i2 :=
  getDataIndexFromX_monotone sampleChart { left := 0, right := 600 } _ 100 450 rfl
    (by norm_num) rfl (by decide) (by norm_num)

/-! ### Reconciliation: the shape of `getFilteredData` -/

theorem getFilteredData_eq (v : Visualizer) (doc : Sliders) :
    getFilteredData v doc =
      if getAllTimePoints v = [] then ([], v)
      else if raisesMissingData v = true then ([], showOOSDataError v)
      else ((selectedTimePoints v doc).map (buildDataPoint v), v) := by
  unfold getFilteredData raisesMissingData selectedTimePoints
  by_cases h0 : getAllTimePoints v = []
  · simp [h0]
  · have hlen : (getAllTimePoints v).length ≠ 0 := by simpa using h0
    simp only [hlen, h0, if_false]
    rcases hs : v.selectedCountries with _ | ⟨c, _ | ⟨c', rest⟩⟩
    · simp
    · by_cases h1 : v.estimationMode = "realtime" <;> by_cases h2 : v.estimationMode = "both" <;>
        cases (v.countryData c).isSome <;> cases (v.countryDataOOS c).isSome <;>
        simp [h1, h2]
    · simp

/-- Claim C3. Single selected country, at least one unified time point, no out-of-sample
series in the store, mode `realtime`: `getFilteredData` returns the empty record list
and sets the error state (`hasOOSError = true`). -/
theorem getFilteredData_realtime_missing (v : Visualizer) (doc : Sliders) (country : String)
    (hsel : v.selectedCountries = [country]) (hpoints : getAllTimePoints v ≠ [])
    (hoos : v.countryDataOOS country = none) (hmode : v.estimationMode = "realtime") :
    (getFilteredData v doc).1 = [] ∧ (getFilteredData v doc).2 = showOOSDataError v ∧
      (getFilteredData v doc).2.hasOOSError = true := by
  have hr : raisesMissingData v = true := by
    simp [raisesMissingData, hsel, hmode, hoos]
  rw [getFilteredData_eq]
  simp [hpoints, hr, showOOSDataError]

theorem getFilteredData_realtime_missing_witness :
    (getFilteredData (latestOnlyUS "realtime") fullRange3).1 = [] ∧
      (getFilteredData (latestOnlyUS "realtime") fullRange3).2 =
        showOOSDataError (latestOnlyUS "realtime") ∧
      (getFilteredData (latestOnlyUS "realtime") fullRange3).2.hasOOSError = true :=
  getFilteredData_realtime_missing (latestOnlyUS "realtime") fullRange3 "US" rfl
    (by decide) rfl rfl

/-- Claim C4. Single selected country, at least one unified time point, mode `both`:
whenever the Latest series or the out-of-sample series of the country is absent,
`getFilteredData` returns the empty record list and sets the error state. -/
theorem getFilteredData_both_missing (v : Visualizer) (doc : Sliders) (country : String)
    (hsel : v.selectedCountries = [country]) (hpoints : getAllTimePoints v ≠ [])
    (hmode : v.estimationMode = "both")
    (habsent : v.countryData country = none ∨ v.countryDataOOS country = none) :
    (getFilteredData v doc).1 = [] ∧ (getFilteredData v doc).2 = showOOSDataError v ∧
      (getFilteredData v doc).2.hasOOSError = true := by
  have hr : raisesMissingData v = true := by
    rcases habsent with h | h <;> simp [raisesMissingData, hsel, hmode, h]
  rw [getFilteredData_eq]
  simp [hpoints, hr, showOOSDataError]

theorem getFilteredData_both_missing_witness :
    (getFilteredData (latestOnlyUS "both") fullRange3).1 = [] ∧
      (getFilteredData (latestOnlyUS "both") fullRange3).2 =
        showOOSDataError (latestOnlyUS "both") ∧
      (getFilteredData (latestOnlyUS "both") fullRange3).2.hasOOSError = true :=
  getFilteredData_both_missing (latestOnlyUS "both") fullRange3 "US" rfl
    (by decide) rfl (Or.inr rfl)

/-! ### Mode `latest` raises no error -/

theorem raisesMissingData_latest (v : Visualizer) (hmode : v.estimationMode = "latest") :
    raisesMissingData v = false := by
  unfold raisesMissingData
  split <;> simp [hmode]

/-- Claim C5, the code at the failing input. US is the only selected country, the mode is
`latest`, the Latest series of US is absent and its out-of-sample series is loaded. The
claim, like the comment over the single-country check ("show error if missing required
data"), asks for the missing-data error and no records; the call returns three records
that hold their `Time` only and leaves `hasOOSError` at `false`. -/
theorem getFilteredData_latest_missing_silent :
    (oosOnlyUS "latest").selectedCountries = ["US"] ∧
      (oosOnlyUS "latest").estimationMode = "latest" ∧
      (oosOnlyUS "latest").countryData "US" = none ∧
      (getFilteredData (oosOnlyUS "latest") fullRange3).1 =
        [[("Time", Value.str "Jan 2020")], [("Time", Value.str "Feb 2020")],
         [("Time", Value.str "Mar 2020")]] ∧
      (getFilteredData (oosOnlyUS "latest") fullRange3).2.hasOOSError = false := by
  refine ⟨rfl, rfl, rfl, ?_, ?_⟩ <;> decide

/-- What the code does whenever a single country is selected in mode `latest` and its
Latest series is absent: the single-country check tests the modes `realtime` and `both`
only, so no missing-data error is raised. The visualizer, `hasOOSError` included, is left
as it was, and the call returns one record per time point of the slider range, each
holding its `Time` only (the country is not available, so it gets no sub-record). -/
theorem getFilteredData_latest_missing (v : Visualizer) (doc : Sliders) (country : String)
    (hsel : v.selectedCountries = [country]) (hmode : v.estimationMode = "latest")
    (hlatest : v.countryData country = none) :
    getFilteredData v doc =
      ((selectedTimePoints v doc).map (fun t => [("Time", Value.str t)]), v) := by
  have hav : availableCountries v = [] := by
    simp [availableCountries, hsel, isAvailable, hmode, hlatest]
  have hb : buildDataPoint v = fun t => [("Time", Value.str t)] := by
    funext t
    simp [buildDataPoint, hav]
  rw [getFilteredData_eq, raisesMissingData_latest v hmode, hb]
  by_cases h0 : getAllTimePoints v = []
  · simp [h0, selectedTimePoints, jsSlice]
  · simp [h0]

theorem getFilteredData_latest_missing_witness :
    getFilteredData (oosOnlyUS "latest") fullRange3 =
      ((selectedTimePoints (oosOnlyUS "latest") fullRange3).map
        (fun t => [("Time", Value.str t)]), oosOnlyUS "latest") :=
  getFilteredData_latest_missing (oosOnlyUS "latest") fullRange3 "US" rfl rfl rfl

/-! ### Records as replayed assignments -/

theorem getKey_setKey (d : DataPoint) (k k' : String) (val : Value) :
    getKey (setKey d k val) k' = if k = k' then some val else getKey d k' := by
  induction d with
  | nil => simp [setKey, getKey]
  | cons kv rest ih =>
    obtain ⟨k0, v0⟩ := kv
    by_cases h : k0 = k
    · subst h
      by_cases h' : k0 = k' <;> simp [setKey, getKey, h']
    · by_cases h' : k0 = k'
      · subst h'
        simp [setKey, getKey, h, Ne.symm h]
      · simp [setKey, getKey, h, h', ih]

theorem getKey_assignAll_of_not_assigned (as : List (String × Value)) (d : DataPoint)
    (k : String) (h : ∀ kv ∈ as, kv.1 ≠ k) : getKey (assignAll d as) k = getKey d k := by
  induction as generalizing d with
  | nil => rfl
  | cons kv rest ih =>
    have hrest : ∀ kv ∈ rest, kv.1 ≠ k := fun kv hkv => h kv (List.mem_cons_of_mem _ hkv)
    have hhead : kv.1 ≠ k := h kv (List.mem_cons_self _ _)
    show getKey (assignAll (setKey d kv.1 kv.2) rest) k = getKey d k
    rw [ih _ hrest, getKey_setKey, if_neg hhead]

theorem getKey_assignAll_of_assigned (as : List (String × Value)) (d : DataPoint)
    (k : String) (val : Value) (hval : ∀ kv ∈ as, kv.1 = k → kv.2 = val)
    (hex : getKey d k = some val ∨ ∃ kv ∈ as, kv.1 = k) :
    getKey (assignAll d as) k = some val := by
  induction as generalizing d with
  | nil =>
    rcases hex with h | ⟨kv, hkv, -⟩
    · exact h
    · cases hkv
  | cons kv rest ih =>
    have hrest : ∀ kv ∈ rest, kv.1 = k → kv.2 = val :=
      fun kv hkv => hval kv (List.mem_cons_of_mem _ hkv)
    show getKey (assignAll (setKey d kv.1 kv.2) rest) k = some val
    apply ih _ hrest
    by_cases hk : kv.1 = k
    · left
      rw [getKey_setKey, if_pos hk, hval kv (List.mem_cons_self _ _) hk]
    · rcases hex with h | ⟨kv', hkv', hk'⟩
      · left
        rw [getKey_setKey, if_neg hk, h]
      · right
        rcases List.mem_cons.mp hkv' with rfl | hmem
        · exact absurd hk' hk
        · exact ⟨kv', hmem, hk'⟩

theorem addCountry_eq_assign (v : Visualizer) (t : String) (d : DataPoint) (c : String) :
    addCountry v t d c = assignAll d (countryAssignments v t c) := by
  unfold addCountry countryAssignments assignAll
  by_cases h1 : v.estimationMode = "latest"
  · simp [h1]
  · by_cases h2 : v.estimationMode = "realtime"
    · simp [h1, h2]
    · by_cases h3 : v.estimationMode = "both"
      · simp [h1, h2, h3]
      · simp [h1, h2, h3]

theorem foldl_addCountry_eq (v : Visualizer) (t : String) (cs : List String) (d : DataPoint) :
    cs.foldl (addCountry v t) d = assignAll d (cs.flatMap (countryAssignments v t)) := by
  induction cs generalizing d with
  | nil => rfl
  | cons c rest ih =>
    simp only [List.foldl_cons, List.flatMap_cons, ih, addCountry_eq_assign]
    simp [assignAll, List.foldl_append]

theorem buildDataPoint_eq (v : Visualizer) (t : String) :
    buildDataPoint v t =
      assignAll [("Time", Value.str t)]
        ((availableCountries v).flatMap (countryAssignments v t)) :=
  foldl_addCountry_eq v t _ _

theorem isSome_getKey_setKey_of_isSome (d : DataPoint) (k k' : String) (val : Value)
    (h : (getKey d k').isSome = true) : (getKey (setKey d k val) k').isSome = true := by
  rw [getKey_setKey]
  split <;> simp [h]

theorem isSome_getKey_assignAll (as : List (String × Value)) (d : DataPoint) (k : String)
    (hex : (getKey d k).isSome = true ∨ ∃ kv ∈ as, kv.1 = k) :
    (getKey (assignAll d as) k).isSome = true := by
  induction as generalizing d with
  | nil =>
    rcases hex with h | ⟨kv, hkv, -⟩
    · exact h
    · cases hkv
  | cons kv rest ih =>
    show (getKey (assignAll (setKey d kv.1 kv.2) rest) k).isSome = true
    apply ih
    by_cases hk : kv.1 = k
    · left
      rw [getKey_setKey, if_pos hk]
      rfl
    · rcases hex with h | ⟨kv', hkv', hk'⟩
      · exact Or.inl (isSome_getKey_setKey_of_isSome d kv.1 k kv.2 h)
      · right
        rcases List.mem_cons.mp hkv' with rfl | hmem
        · exact absurd hk' hk
        · exact ⟨kv', hmem, hk'⟩

theorem key_of_mem_countryAssignments (v : Visualizer) (t c : String) (kv : String × Value)
    (h : kv ∈ countryAssignments v t c) : kv.1 = c ∨ kv.1 = c ++ "_OOS" := by
  unfold countryAssignments at h
  dsimp only at h
  split_ifs at h
  · rw [List.mem_singleton] at h
    exact Or.inl (by rw [h])
  · rw [List.mem_singleton] at h
    exact Or.inl (by rw [h])
  · rcases List.mem_cons.mp h with h | h
    · exact Or.inl (by rw [h])
    · rw [List.mem_singleton] at h
      exact Or.inr (by rw [h])
  · cases h

theorem countryAssignments_has_key (v : Visualizer) (t c : String)
    (hmode : v.estimationMode = "latest" ∨ v.estimationMode = "realtime" ∨
      v.estimationMode = "both") :
    ∃ kv ∈ countryAssignments v t c, kv.1 = c := by
  unfold countryAssignments
  rcases hmode with h | h | h <;> simp [h]

theorem append_OOS_ne_Time (c : String) : c ++ "_OOS" ≠ "Time" := by
  intro h
  have hl := congrArg String.length h
  rw [String.length_append] at hl
  have h4 : "_OOS".length = 4 := by decide
  have h4' : "Time".length = 4 := by decide
  have hc : c.length = 0 := by omega
  have hc' : c = "" := by
    cases c with
    | mk data =>
      have : data = [] := List.length_eq_zero.mp hc
      subst this
      rfl
  subst hc'
  exact absurd h (by decide)

/-- The record of a time point has the key `c`, for a selected country `c`, exactly when
`c` passes the availability filter. -/
theorem hasKey_buildDataPoint (v : Visualizer) (t c : String)
    (hmode : v.estimationMode = "latest" ∨ v.estimationMode = "realtime" ∨
      v.estimationMode = "both")
    (hTime : "Time" ∉ v.selectedCountries)
    (hOOS : ∀ a ∈ v.selectedCountries, ∀ b ∈ v.selectedCountries, a ≠ b ++ "_OOS")
    (hc : c ∈ v.selectedCountries) :
    (getKey (buildDataPoint v t) c).isSome = isAvailable v c := by
  rw [buildDataPoint_eq]
  by_cases hav : isAvailable v c = true
  · rw [hav]
    apply isSome_getKey_assignAll
    right
    obtain ⟨kv, hkv, hk⟩ := countryAssignments_has_key v t c hmode
    refine ⟨kv, ?_, hk⟩
    rw [List.mem_flatMap]
    exact ⟨c, by simp [availableCountries, hc, hav], hkv⟩
  · have hav' : isAvailable v c = false := by simpa using hav
    rw [hav', getKey_assignAll_of_not_assigned]
    · have : "Time" ≠ c := fun h => hTime (h ▸ hc)
      simp [getKey, this]
    · intro kv hkv
      rw [List.mem_flatMap] at hkv
      obtain ⟨c', hc', hkv'⟩ := hkv
      have hc'sel : c' ∈ v.selectedCountries ∧ isAvailable v c' = true := by
        simpa [availableCountries] using hc'
      rcases key_of_mem_countryAssignments v t c' kv hkv' with h | h
      · rw [h]
        intro heq
        rw [heq] at hc'sel
        exact hav hc'sel.2
      · rw [h]
        exact fun heq => hOOS c hc c' hc'sel.1 heq.symm

theorem raisesMissingData_multi (v : Visualizer) (h : 2 ≤ v.selectedCountries.length) :
    raisesMissingData v = false := by
  unfold raisesMissingData
  split
  · rename_i c hc
    rw [hc] at h
    simp at h
  · rfl

/-- Claim C6. With two or more selected countries, in each estimation mode, no error is
raised (the visualizer, `hasOOSError` included, is left as it was) and in every returned
record the selected countries that have a key are, in selection order, exactly those
whose required series are loaded: Latest for `latest`, out-of-sample for `realtime`,
both for `both`. Country codes are taken not to clash with the record's other keys
(`Time`, and `<code>_OOS` of a selected code). -/
theorem getFilteredData_multi_available (v : Visualizer) (doc : Sliders)
    (hmulti : 2 ≤ v.selectedCountries.length)
    (hmode : v.estimationMode = "latest" ∨ v.estimationMode = "realtime" ∨
      v.estimationMode = "both")
    (hTime : "Time" ∉ v.selectedCountries)
    (hOOS : ∀ a ∈ v.selectedCountries, ∀ b ∈ v.selectedCountries, a ≠ b ++ "_OOS") :
    (getFilteredData v doc).2 = v ∧
    ∀ r ∈ (getFilteredData v doc).1,
      (v.estimationMode = "latest" →
        v.selectedCountries.filter (fun c => (getKey r c).isSome) =
          v.selectedCountries.filter (fun c => (v.countryData c).isSome)) ∧
      (v.estimationMode = "realtime" →
        v.selectedCountries.filter (fun c => (getKey r c).isSome) =
          v.selectedCountries.filter (fun c => (v.countryDataOOS c).isSome)) ∧
      (v.estimationMode = "both" →
        v.selectedCountries.filter (fun c => (getKey r c).isSome) =
          v.selectedCountries.filter
            (fun c => (v.countryData c).isSome && (v.countryDataOOS c).isSome)) ∧
      List.Sublist (v.selectedCountries.filter (fun c => (getKey r c).isSome))
        v.selectedCountries := by
  rw [getFilteredData_eq, raisesMissingData_multi v hmulti]
  by_cases h0 : getAllTimePoints v = []
  · simp [h0]
  · simp only [h0, if_false, Bool.false_eq_true, List.mem_map, forall_exists_index, and_imp,
      true_and]
    intro r t _ hr
    subst hr
    have key : ∀ c ∈ v.selectedCountries,
        (getKey (buildDataPoint v t) c).isSome = isAvailable v c :=
      fun c hc => hasKey_buildDataPoint v t c hmode hTime hOOS hc
    refine ⟨fun hm => ?_, fun hm => ?_, fun hm => ?_, List.filter_sublist _⟩
    · apply List.filter_congr
      intro c hc
      rw [key c hc]
      simp [isAvailable, hm]
    · apply List.filter_congr
      intro c hc
      rw [key c hc]
      simp [isAvailable, hm]
    · apply List.filter_congr
      intro c hc
      rw [key c hc]
      simp [isAvailable, hm]

theorem getFilteredData_multi_available_witness :
    (getFilteredData (usAndDE "both") fullRange4).2 = usAndDE "both" ∧
    ∀ r ∈ (getFilteredData (usAndDE "both") fullRange4).1,
      ((usAndDE "both").estimationMode = "latest" →
        (usAndDE "both").selectedCountries.filter (fun c => (getKey r c).isSome) =
          (usAndDE "both").selectedCountries.filter
            (fun c => ((usAndDE "both").countryData c).isSome)) ∧
      ((usAndDE "both").estimationMode = "realtime" →
        (usAndDE "both").selectedCountries.filter (fun c => (getKey r c).isSome) =
          (usAndDE "both").selectedCountries.filter
            (fun c => ((usAndDE "both").countryDataOOS c).isSome)) ∧
      ((usAndDE "both").estimationMode = "both" →
        (usAndDE "both").selectedCountries.filter (fun c => (getKey r c).isSome) =
          (usAndDE "both").selectedCountries.filter
            (fun c => ((usAndDE "both").countryData c).isSome &&
              ((usAndDE "both").countryDataOOS c).isSome)) ∧
      List.Sublist ((usAndDE "both").selectedCountries.filter (fun c => (getKey r c).isSome))
        (usAndDE "both").selectedCountries :=
  getFilteredData_multi_available (usAndDE "both") fullRange4 (by decide)
    (Or.inr (Or.inr rfl)) (by decide) (by decide)

/-! ### The slider range -/

theorem jsSlice_range {α : Type} (l : List α) (s e : ℤ) (h0 : 0 ≤ s) (hse : s ≤ e)
    (hen : e ≤ (l.length : ℤ) - 1) :
    jsSlice l s (min (e + 1) l.length) = (l.drop s.toNat).take (e - s + 1).toNat := by
  unfold jsSlice
  have h1 : ¬ s < 0 := by omega
  have h2 : min (e + 1) (l.length : ℤ) = e + 1 := min_eq_left (by omega)
  have h3 : ¬ e + 1 < 0 := by omega
  have h4 : min s (l.length : ℤ) = s := min_eq_left (by omega)
  simp only [h1, h2, h3, h4, if_false, min_self]
  congr 1
  congr 1
  omega

theorem getKey_Time_buildDataPoint (v : Visualizer) (t : String)
    (hTime : "Time" ∉ v.selectedCountries) :
    getKey (buildDataPoint v t) "Time" = some (Value.str t) := by
  rw [buildDataPoint_eq, getKey_assignAll_of_not_assigned]
  · simp [getKey]
  · intro kv hkv
    rw [List.mem_flatMap] at hkv
    obtain ⟨c', hc', hkv'⟩ := hkv
    have hc'sel : c' ∈ v.selectedCountries := (List.mem_filter.mp hc').1
    rcases key_of_mem_countryAssignments v t c' kv hkv' with h | h
    · rw [h]
      exact fun heq => hTime (heq ▸ hc'sel)
    · rw [h]
      exact append_OOS_ne_Time c'

/-- Claim C7. When no missing-data error is raised and the slider values satisfy
`0 ≤ start ≤ end ≤ n - 1` (`n` the number of unified time points), `getFilteredData`
returns `end - start + 1` records and the `i`-th record's `Time` is the `(start + i)`-th
unified time point. No country code is taken to be `Time`. -/
theorem getFilteredData_range (v : Visualizer) (doc : Sliders) (s e : ℤ)
    (hnoerr : raisesMissingData v = false) (hTime : "Time" ∉ v.selectedCountries)
    (hs : doc.startValue.getD 0 = s)
    (he : doc.endValue.getD (((getAllTimePoints v).length : ℤ) - 1) = e)
    (h0 : 0 ≤ s) (hse : s ≤ e) (hen : e ≤ ((getAllTimePoints v).length : ℤ) - 1) :
    (getFilteredData v doc).1.length = (e - s + 1).toNat ∧
    ∀ i : ℕ, (i : ℤ) ≤ e - s →
      ∃ r t, (getFilteredData v doc).1[i]? = some r ∧
        (getAllTimePoints v)[s.toNat + i]? = some t ∧
        getKey r "Time" = some (Value.str t) := by
  have hne : getAllTimePoints v ≠ [] := by
    intro h
    rw [h] at hen
    simp at hen
    omega
  have hrec : (getFilteredData v doc).1 =
      (((getAllTimePoints v).drop s.toNat).take (e - s + 1).toNat).map (buildDataPoint v) := by
    rw [getFilteredData_eq, hnoerr]
    simp only [hne, if_false, Bool.false_eq_true]
    unfold selectedTimePoints
    simp only [hs, he]
    rw [jsSlice_range _ s e h0 hse hen]
  rw [hrec]
  constructor
  · rw [List.length_map, List.length_take, List.length_drop]
    omega
  · intro i hi
    have hlt : s.toNat + i < (getAllTimePoints v).length := by omega
    refine ⟨buildDataPoint v ((getAllTimePoints v)[s.toNat + i]), (getAllTimePoints v)[s.toNat + i],
      ?_, List.getElem?_eq_getElem hlt, getKey_Time_buildDataPoint v _ hTime⟩
    rw [List.getElem?_map, List.getElem?_take, if_pos (by omega), List.getElem?_drop,
      List.getElem?_eq_getElem hlt]
    rfl

theorem getFilteredData_range_witness :
    (getFilteredData (usAndDE "latest") middleRange4).1.length = ((2 : ℤ) - 1 + 1).toNat ∧
    ∀ i : ℕ, (i : ℤ) ≤ 2 - 1 →
      ∃ r t, (getFilteredData (usAndDE "latest") middleRange4).1[i]? = some r ∧
        (getAllTimePoints (usAndDE "latest"))[(1 : ℤ).toNat + i]? = some t ∧
        getKey r "Time" = some (Value.str t) :=
  getFilteredData_range (usAndDE "latest") middleRange4 1 2 (by decide) (by decide) rfl rfl
    (by decide) (by decide) (by decide)

/-! ### Sub-records -/

theorem findRow_isSubRecord (data : List Row) (t : String) :
    IsSubRecord data t (findRow data t) := by
  unfold IsSubRecord findRow
  cases h : data.find? (fun r => r.Time = t) with
  | none =>
    right
    refine ⟨fun row hrow heq => ?_, rfl⟩
    have := List.find?_eq_none.mp h row hrow
    simp [heq] at this
  | some row =>
    left
    refine ⟨row, rfl, List.mem_of_find?_eq_some h, ?_, rfl⟩
    have := List.find?_some h
    simpa using this

theorem countryAssignments_latest (v : Visualizer) (t c : String)
    (hm : v.estimationMode = "latest") :
    countryAssignments v t c = [(c, latestValue v t c)] := by
  simp [countryAssignments, latestValue, hm]

theorem countryAssignments_realtime (v : Visualizer) (t c : String)
    (hm : v.estimationMode = "realtime") :
    countryAssignments v t c = [(c, oosValue v t c)] := by
  simp [countryAssignments, oosValue, hm]

theorem countryAssignments_both (v : Visualizer) (t c : String)
    (hm : v.estimationMode = "both") :
    countryAssignments v t c = [(c, latestValue v t c), (c ++ "_OOS", oosValue v t c)] := by
  simp [countryAssignments, latestValue, oosValue, hm]

theorem append_OOS_injective (a b : String) (h : a ++ "_OOS" = b ++ "_OOS") : a = b := by
  have hd := congrArg String.data h
  rw [String.data_append, String.data_append] at hd
  exact String.ext (List.append_cancel_right hd)

theorem getKey_country_latest (v : Visualizer) (t c : String)
    (hm : v.estimationMode = "latest") (hc : c ∈ availableCountries v) :
    getKey (buildDataPoint v t) c = some (latestValue v t c) := by
  rw [buildDataPoint_eq]
  apply getKey_assignAll_of_assigned
  · intro kv hkv hk
    rw [List.mem_flatMap] at hkv
    obtain ⟨c', -, hkv'⟩ := hkv
    rw [countryAssignments_latest v t c' hm, List.mem_singleton] at hkv'
    subst hkv'
    simp only at hk
    rw [hk]
  · right
    exact ⟨(c, latestValue v t c), List.mem_flatMap.mpr
      ⟨c, hc, by rw [countryAssignments_latest v t c hm]; exact List.mem_singleton_self _⟩, rfl⟩

theorem getKey_country_realtime (v : Visualizer) (t c : String)
    (hm : v.estimationMode = "realtime") (hc : c ∈ availableCountries v) :
    getKey (buildDataPoint v t) c = some (oosValue v t c) := by
  rw [buildDataPoint_eq]
  apply getKey_assignAll_of_assigned
  · intro kv hkv hk
    rw [List.mem_flatMap] at hkv
    obtain ⟨c', -, hkv'⟩ := hkv
    rw [countryAssignments_realtime v t c' hm, List.mem_singleton] at hkv'
    subst hkv'
    simp only at hk
    rw [hk]
  · right
    exact ⟨(c, oosValue v t c), List.mem_flatMap.mpr
      ⟨c, hc, by rw [countryAssignments_realtime v t c hm]; exact List.mem_singleton_self _⟩,
      rfl⟩

theorem getKey_country_both (v : Visualizer) (t c : String)
    (hm : v.estimationMode = "both")
    (hOOS : ∀ a ∈ v.selectedCountries, ∀ b ∈ v.selectedCountries, a ≠ b ++ "_OOS")
    (hc : c ∈ availableCountries v) :
    getKey (buildDataPoint v t) c = some (latestValue v t c) ∧
      getKey (buildDataPoint v t) (c ++ "_OOS") = some (oosValue v t c) := by
  have hcsel : c ∈ v.selectedCountries := (List.mem_filter.mp hc).1
  rw [buildDataPoint_eq]
  constructor
  · apply getKey_assignAll_of_assigned
    · intro kv hkv hk
      rw [List.mem_flatMap] at hkv
      obtain ⟨c', hc', hkv'⟩ := hkv
      have hc'sel : c' ∈ v.selectedCountries := (List.mem_filter.mp hc').1
      rw [countryAssignments_both v t c' hm] at hkv'
      rcases List.mem_cons.mp hkv' with h | h
      · subst h
        simp only at hk
        rw [hk]
      · rw [List.mem_singleton] at h
        subst h
        simp only at hk
        exact absurd hk.symm (hOOS c hcsel c' hc'sel)
    · right
      exact ⟨(c, latestValue v t c), List.mem_flatMap.mpr
        ⟨c, hc, by rw [countryAssignments_both v t c hm]; exact List.mem_cons_self _ _⟩, rfl⟩
  · apply getKey_assignAll_of_assigned
    · intro kv hkv hk
      rw [List.mem_flatMap] at hkv
      obtain ⟨c', hc', hkv'⟩ := hkv
      have hc'sel : c' ∈ v.selectedCountries := (List.mem_filter.mp hc').1
      rw [countryAssignments_both v t c' hm] at hkv'
      rcases List.mem_cons.mp hkv' with h | h
      · subst h
        simp only at hk
        exact absurd hk (hOOS c' hc'sel c hcsel)
      · rw [List.mem_singleton] at h
        subst h
        simp only at hk
        rw [append_OOS_injective c' c hk]
    · right
      exact ⟨(c ++ "_OOS", oosValue v t c), List.mem_flatMap.mpr
        ⟨c, hc, by
          rw [countryAssignments_both v t c hm]
          exact List.mem_cons_of_mem _ (List.mem_singleton_self _)⟩, rfl⟩

theorem mem_getFilteredData (v : Visualizer) (doc : Sliders) (r : DataPoint)
    (hr : r ∈ (getFilteredData v doc).1) : ∃ t, r = buildDataPoint v t := by
  rw [getFilteredData_eq] at hr
  split_ifs at hr
  · cases hr
  · cases hr
  · obtain ⟨t, -, ht⟩ := List.mem_map.mp hr
    exact ⟨t, ht.symm⟩

/-- Claim C8. In every record returned by `getFilteredData`, with `t` the record's `Time`,
and for every available country `c`: in mode `latest` the value under `c` is the row of
the Latest series whose `Time` is `t`, or `null` when there is none; in mode `realtime`
it is that row of the out-of-sample series; in mode `both` the Latest row is under `c`
and the out-of-sample row under `c ++ "_OOS"`. The value is the source row itself, so
its `RecessionRisk_p50` is the source row's. Country codes are taken not to clash with
the record's other keys. -/
theorem getFilteredData_subrecords (v : Visualizer) (doc : Sliders)
    (hTime : "Time" ∉ v.selectedCountries)
    (hOOS : ∀ a ∈ v.selectedCountries, ∀ b ∈ v.selectedCountries, a ≠ b ++ "_OOS") :
    ∀ r ∈ (getFilteredData v doc).1, ∃ t, getKey r "Time" = some (Value.str t) ∧
      ∀ c ∈ availableCountries v,
        (v.estimationMode = "latest" →
          ∃ latest val, v.countryData c = some latest ∧ getKey r c = some val ∧
            IsSubRecord latest.data t val) ∧
        (v.estimationMode = "realtime" →
          ∃ oos val, v.countryDataOOS c = some oos ∧ getKey r c = some val ∧
            IsSubRecord oos.data t val) ∧
        (v.estimationMode = "both" →
          ∃ latest oos val valOOS, v.countryData c = some latest ∧
            v.countryDataOOS c = some oos ∧
            getKey r c = some val ∧ IsSubRecord latest.data t val ∧
            getKey r (c ++ "_OOS") = some valOOS ∧ IsSubRecord oos.data t valOOS) := by
  intro r hr
  obtain ⟨t, rfl⟩ := mem_getFilteredData v doc r hr
  refine ⟨t, getKey_Time_buildDataPoint v t hTime, fun c hc => ⟨fun hm => ?_, fun hm => ?_,
    fun hm => ?_⟩⟩
  · have hav : isAvailable v c = true := (List.mem_filter.mp hc).2
    have hsome : (v.countryData c).isSome = true := by simpa [isAvailable, hm] using hav
    obtain ⟨latest, hl⟩ := Option.isSome_iff_exists.mp hsome
    refine ⟨latest, latestValue v t c, hl, getKey_country_latest v t c hm hc, ?_⟩
    simp only [latestValue, hl]
    exact findRow_isSubRecord _ _
  · have hav : isAvailable v c = true := (List.mem_filter.mp hc).2
    have hsome : (v.countryDataOOS c).isSome = true := by simpa [isAvailable, hm] using hav
    obtain ⟨oos, ho⟩ := Option.isSome_iff_exists.mp hsome
    refine ⟨oos, oosValue v t c, ho, getKey_country_realtime v t c hm hc, ?_⟩
    simp only [oosValue, ho]
    exact findRow_isSubRecord _ _
  · have hav : isAvailable v c = true := (List.mem_filter.mp hc).2
    have hsome : (v.countryData c).isSome = true ∧ (v.countryDataOOS c).isSome = true := by
      simpa [isAvailable, hm] using hav
    obtain ⟨latest, hl⟩ := Option.isSome_iff_exists.mp hsome.1
    obtain ⟨oos, ho⟩ := Option.isSome_iff_exists.mp hsome.2
    obtain ⟨h1, h2⟩ := getKey_country_both v t c hm hOOS hc
    refine ⟨latest, oos, latestValue v t c, oosValue v t c, hl, ho, h1, ?_, h2, ?_⟩
    · simp only [latestValue, hl]
      exact findRow_isSubRecord _ _
    · simp only [oosValue, ho]
      exact findRow_isSubRecord _ _

theorem getFilteredData_subrecords_witness :
    ("Time" ∉ (usAndDE "both").selectedCountries ∧
      ∀ a ∈ (usAndDE "both").selectedCountries, ∀ b ∈ (usAndDE "both").selectedCountries,
        a ≠ b ++ "_OOS") ∧
    ∀ r ∈ (getFilteredData (usAndDE "both") fullRange4).1,
      ∃ t, getKey r "Time" = some (Value.str t) ∧
      ∀ c ∈ availableCountries (usAndDE "both"),
        ((usAndDE "both").estimationMode = "latest" →
          ∃ latest val, (usAndDE "both").countryData c = some latest ∧
            getKey r c = some val ∧ IsSubRecord latest.data t val) ∧
        ((usAndDE "both").estimationMode = "realtime" →
          ∃ oos val, (usAndDE "both").countryDataOOS c = some oos ∧
            getKey r c = some val ∧ IsSubRecord oos.data t val) ∧
        ((usAndDE "both").estimationMode = "both" →
          ∃ latest oos val valOOS, (usAndDE "both").countryData c = some latest ∧
            (usAndDE "both").countryDataOOS c = some oos ∧
            getKey r c = some val ∧ IsSubRecord latest.data t val ∧
            getKey r (c ++ "_OOS") = some valOOS ∧ IsSubRecord oos.data t valOOS) :=
  ⟨⟨by decide, by decide⟩,
    getFilteredData_subrecords (usAndDE "both") fullRange4 (by decide) (by decide)⟩

/-! ### The unified time points -/

theorem mem_setAdd (s : List String) (t x : String) : x ∈ setAdd s t ↔ x ∈ s ∨ x = t := by
  unfold setAdd
  split
  · rename_i h
    constructor
    · exact Or.inl
    · rintro (h' | rfl)
      · exact h'
      · exact h
  · simp

theorem nodup_setAdd (s : List String) (t : String) (h : s.Nodup) : (setAdd s t).Nodup := by
  unfold setAdd
  split
  · exact h
  · rename_i hn
    rw [List.nodup_append]
    refine ⟨h, List.nodup_singleton t, ?_⟩
    intro a ha hb
    rw [List.mem_singleton] at hb
    exact hn (hb ▸ ha)

theorem mem_foldl_setAdd (data : List Row) (acc : List String) (x : String) :
    x ∈ data.foldl (fun s row => setAdd s row.Time) acc ↔
      x ∈ acc ∨ ∃ row ∈ data, row.Time = x := by
  induction data generalizing acc with
  | nil => simp
  | cons row rest ih =>
    rw [List.foldl_cons, ih, mem_setAdd]
    constructor
    · rintro ((h | h) | ⟨r, hr, hx⟩)
      · exact Or.inl h
      · exact Or.inr ⟨row, List.mem_cons_self _ _, h.symm⟩
      · exact Or.inr ⟨r, List.mem_cons_of_mem _ hr, hx⟩
    · rintro (h | ⟨r, hr, hx⟩)
      · exact Or.inl (Or.inl h)
      · rcases List.mem_cons.mp hr with rfl | hr'
        · exact Or.inl (Or.inr hx.symm)
        · exact Or.inr ⟨r, hr', hx⟩

theorem nodup_foldl_setAdd (data : List Row) (acc : List String) (h : acc.Nodup) :
    (data.foldl (fun s row => setAdd s row.Time) acc).Nodup := by
  induction data generalizing acc with
  | nil => exact h
  | cons row rest ih => exact ih _ (nodup_setAdd acc row.Time h)

/-- A label of some row of the Latest or the out-of-sample series of `country`. -/
theorem mem_addCountryTimePoints (v : Visualizer) (acc : List String) (c x : String) :
    x ∈ addCountryTimePoints v acc c ↔
      x ∈ acc ∨ ∃ e, (v.countryData c = some e ∨ v.countryDataOOS c = some e) ∧
        ∃ row ∈ e.data, row.Time = x := by
  unfold addCountryTimePoints
  cases hl : v.countryData c with
  | none =>
    cases ho : v.countryDataOOS c with
    | none => simp
    | some eo =>
      simp only [mem_foldl_setAdd]
      constructor
      · rintro (h | h)
        · exact Or.inl h
        · exact Or.inr ⟨eo, Or.inr rfl, h⟩
      · rintro (h | ⟨e, he | he, h⟩)
        · exact Or.inl h
        · cases he
        · cases he
          exact Or.inr h
  | some el =>
    cases ho : v.countryDataOOS c with
    | none =>
      simp only [mem_foldl_setAdd]
      constructor
      · rintro (h | h)
        · exact Or.inl h
        · exact Or.inr ⟨el, Or.inl rfl, h⟩
      · rintro (h | ⟨e, he | he, h⟩)
        · exact Or.inl h
        · cases he
          exact Or.inr h
        · cases he
    | some eo =>
      simp only [mem_foldl_setAdd]
      constructor
      · rintro ((h | h) | h)
        · exact Or.inl h
        · exact Or.inr ⟨el, Or.inl rfl, h⟩
        · exact Or.inr ⟨eo, Or.inr rfl, h⟩
      · rintro (h | ⟨e, he | he, h⟩)
        · exact Or.inl (Or.inl h)
        · cases he
          exact Or.inl (Or.inr h)
        · cases he
          exact Or.inr h

theorem nodup_addCountryTimePoints (v : Visualizer) (acc : List String) (c : String)
    (h : acc.Nodup) : (addCountryTimePoints v acc c).Nodup := by
  unfold addCountryTimePoints
  cases v.countryData c <;> cases v.countryDataOOS c <;>
    simp only <;> first | exact h | (apply nodup_foldl_setAdd; first | exact h | exact nodup_foldl_setAdd _ _ h)

theorem mem_foldl_addCountryTimePoints (v : Visualizer) (cs : List String) (acc : List String)
    (x : String) :
    x ∈ cs.foldl (addCountryTimePoints v) acc ↔
      x ∈ acc ∨ ∃ c ∈ cs, ∃ e, (v.countryData c = some e ∨ v.countryDataOOS c = some e) ∧
        ∃ row ∈ e.data, row.Time = x := by
  induction cs generalizing acc with
  | nil => simp
  | cons c rest ih =>
    rw [List.foldl_cons, ih, mem_addCountryTimePoints]
    constructor
    · rintro ((h | h) | ⟨c', hc', h⟩)
      · exact Or.inl h
      · exact Or.inr ⟨c, List.mem_cons_self _ _, h⟩
      · exact Or.inr ⟨c', List.mem_cons_of_mem _ hc', h⟩
    · rintro (h | ⟨c', hc', h⟩)
      · exact Or.inl (Or.inl h)
      · rcases List.mem_cons.mp hc' with rfl | hc''
        · exact Or.inl (Or.inr h)
        · exact Or.inr ⟨c', hc'', h⟩

theorem nodup_foldl_addCountryTimePoints (v : Visualizer) (cs : List String)
    (acc : List String) (h : acc.Nodup) : (cs.foldl (addCountryTimePoints v) acc).Nodup := by
  induction cs generalizing acc with
  | nil => exact h
  | cons c rest ih => exact ih _ (nodup_addCountryTimePoints v acc c h)

theorem getAllTimePoints_perm (v : Visualizer) :
    (getAllTimePoints v).Perm (collectTimePoints v) :=
  List.perm_insertionSort _ _

theorem getAllTimePoints_nodup (v : Visualizer) : (getAllTimePoints v).Nodup := by
  rw [(getAllTimePoints_perm v).nodup_iff]
  exact nodup_foldl_addCountryTimePoints v _ [] List.nodup_nil

theorem mem_getAllTimePoints (v : Visualizer) (t : String) :
    t ∈ getAllTimePoints v ↔
      ∃ c ∈ v.selectedCountries, ∃ e,
        (v.countryData c = some e ∨ v.countryDataOOS c = some e) ∧
        ∃ row ∈ e.data, row.Time = t := by
  rw [(getAllTimePoints_perm v).mem_iff]
  unfold collectTimePoints
  rw [mem_foldl_addCountryTimePoints]
  simp

/-- Claim C9. `getAllTimePoints` returns the deduplicated union of the time labels of the
selected countries: no label occurs twice, and a label occurs exactly when it is the
`Time` of a row of the Latest or the out-of-sample series of a selected country. -/
theorem getAllTimePoints_dedup_union (v : Visualizer) :
    (getAllTimePoints v).Nodup ∧
    ∀ t, t ∈ getAllTimePoints v ↔
      ∃ c ∈ v.selectedCountries, ∃ e,
        (v.countryData c = some e ∨ v.countryDataOOS c = some e) ∧
        ∃ row ∈ e.data, row.Time = t :=
  ⟨getAllTimePoints_nodup v, mem_getAllTimePoints v⟩

/-! ### Chronological order -/

theorem monthIndex_mem (m : String) (i : ℕ) (h : monthIndex m = some i) :
    (m, i) ∈ monthTable := by
  unfold monthIndex at h
  generalize monthTable = tbl at h ⊢
  induction tbl with
  | nil => simp [List.lookup] at h
  | cons kv rest ih =>
    obtain ⟨k, x⟩ := kv
    by_cases hk : m = k
    · subst hk
      simp [List.lookup] at h
      subst h
      exact List.mem_cons_self _ _
    · have : (m == k) = false := by simpa using hk
      simp only [List.lookup, this] at h
      exact List.mem_cons_of_mem _ (ih h)

theorem monthTable_chars :
    ∀ kv ∈ monthTable, (∀ c ∈ kv.1.data, c.isDigit = false ∧ c ≠ ' ') ∧ kv.2 ≤ 11 := by
  decide

theorem includes_cons_of_ne (c h : Char) (s pt : List Char) (hne : c ≠ h) :
    includes (c :: s) (h :: pt) = includes s (h :: pt) := by
  have : (h == c) = false := by simpa using Ne.symm hne
  simp [includes, List.isPrefixOf, this]

theorem includes_append_of_ne (q s pt : List Char) (h : Char) (hq : ∀ c ∈ q, c ≠ h) :
    includes (q ++ s) (h :: pt) = includes s (h :: pt) := by
  induction q with
  | nil => rfl
  | cons c rest ih =>
    rw [List.cons_append, includes_cons_of_ne c h _ pt (hq c (List.mem_cons_self _ _))]
    exact ih (fun c' hc' => hq c' (List.mem_cons_of_mem _ hc'))

theorem matchFourDigits_cons_of_not_digit (c : Char) (l : List Char)
    (hc : c.isDigit = false) : matchFourDigits (c :: l) = matchFourDigits l := by
  match l with
  | [] => rfl
  | [_] => rfl
  | [_, _] => rfl
  | [_, _, _] => simp [matchFourDigits, fourDigits, hc]
  | _ :: _ :: _ :: _ :: _ => simp [matchFourDigits, fourDigits, hc]

theorem matchFourDigits_append_of_not_digit (q s : List Char)
    (hq : ∀ c ∈ q, c.isDigit = false) : matchFourDigits (q ++ s) = matchFourDigits s := by
  induction q with
  | nil => rfl
  | cons c rest ih =>
    rw [List.cons_append,
      matchFourDigits_cons_of_not_digit c _ (hq c (List.mem_cons_self _ _))]
    exact ih (fun c' hc' => hq c' (List.mem_cons_of_mem _ hc'))

theorem takeWhile_before_space (p s : List Char) (hp : ∀ c ∈ p, c ≠ ' ') :
    (p ++ ' ' :: s).takeWhile (fun c => c != ' ') = p := by
  induction p with
  | nil => simp
  | cons c rest ih =>
    have hc : (c != ' ') = true := by simpa using hp c (List.mem_cons_self _ _)
    rw [List.cons_append, List.takeWhile_cons, hc]
    simp only [if_true]
    rw [ih (fun c' hc' => hp c' (List.mem_cons_of_mem _ hc'))]

theorem ne_of_not_digit (c h : Char) (hc : c.isDigit = false) (hh : h.isDigit = true) :
    c ≠ h := by
  rintro rfl
  rw [hc] at hh
  cases hh

theorem parseYear_append_of_not_digit (q s : List Char) (hq : ∀ c ∈ q, c.isDigit = false) :
    parseYear ⟨q ++ s⟩ = parseYear ⟨s⟩ := by
  have hinc : ∀ (h : Char) (pt : List Char), h.isDigit = true →
      includes (q ++ s) (h :: pt) = includes s (h :: pt) :=
    fun h pt hh => includes_append_of_ne q s pt h (fun c hc => ne_of_not_digit c h (hq c hc) hh)
  unfold parseYear
  simp only [matchFourDigits_append_of_not_digit q s hq]
  rw [hinc '1' _ (by decide), hinc '1' _ (by decide), hinc '2' _ (by decide),
    hinc '2' _ (by decide), hinc '2' _ (by decide)]

theorem parseYear_toString (y : ℕ) (hlo : 1980 ≤ y) (hhi : y ≤ 2029) :
    parseYear (toString y) = y := by
  interval_cases y <;> decide

/-- The year and the month of a label `<month> <YYYY>`, `1980 ≤ YYYY ≤ 2029`. -/
theorem parseTimeString_label (m : String) (i y : ℕ) (hm : monthIndex m = some i)
    (hlo : 1980 ≤ y) (hhi : y ≤ 2029) :
    parseTimeString (m ++ " " ++ toString y) = some { year := y, month := i } := by
  have hchars := (monthTable_chars (m, i) (monthIndex_mem m i hm)).1
  have hdata : (m ++ " " ++ toString y).data = (m.data ++ [' ']) ++ (toString y).data := by
    simp [String.data_append]
  have hdata' : (m ++ " " ++ toString y).data = m.data ++ ' ' :: (toString y).data := by
    simp [String.data_append]
  have hyear : parseYear (m ++ " " ++ toString y) = y := by
    have : (m ++ " " ++ toString y) = ⟨(m.data ++ [' ']) ++ (toString y).data⟩ :=
      String.ext hdata
    rw [this, parseYear_append_of_not_digit]
    · exact parseYear_toString y hlo hhi
    · intro c hc
      rcases List.mem_append.mp hc with h | h
      · exact (hchars c h).1
      · rw [List.mem_singleton] at h
        subst h
        decide
  have hmonth : parseMonth (m ++ " " ++ toString y) = m := by
    unfold parseMonth
    rw [hdata', takeWhile_before_space _ _ (fun c hc => (hchars c hc).2)]
  unfold parseTimeString
  simp only [hyear, hmonth, hm, Option.map_some']

theorem sortsBefore_iff_timeKey (a b : String) (dateA dateB : MonthDate)
    (ha : parseTimeString a = some dateA) (hb : parseTimeString b = some dateB) :
    sortsBefore a b ↔ timeKey a ≤ timeKey b := by
  simp only [sortsBefore, compareTime, timeKey, ha, hb, Option.getD_some, Option.map_some']
  omega

theorem sortTimePoints_pairwise (l : List String)
    (hvalid : ∀ t ∈ l, ∃ d, parseTimeString t = some d) :
    (sortTimePoints l).Pairwise (fun a b => timeKey a ≤ timeKey b) := by
  have hmap : (sortTimePoints l).map timeKey =
      (l.map timeKey).insertionSort (fun x y : ℤ => x ≤ y) := by
    unfold sortTimePoints
    apply List.map_insertionSort
    intro a ha b hb
    obtain ⟨da, hda⟩ := hvalid a ha
    obtain ⟨db, hdb⟩ := hvalid b hb
    exact sortsBefore_iff_timeKey a b da db hda hdb
  have hsorted : ((sortTimePoints l).map timeKey).Pairwise (fun x y : ℤ => x ≤ y) := by
    rw [hmap]
    exact List.sorted_insertionSort (fun x y : ℤ => x ≤ y) _
  exact List.pairwise_map.mp hsorted

theorem chronoLE_of_timeKey_le (a b : String) (dateA dateB : MonthDate)
    (ha : parseTimeString a = some dateA) (hb : parseTimeString b = some dateB)
    (hma : dateA.month ≤ 11) (hmb : dateB.month ≤ 11) (hle : timeKey a ≤ timeKey b) :
    ChronoLE a b := by
  refine ⟨dateA, dateB, ha, hb, ?_⟩
  simp only [timeKey, ha, hb, Option.map_some', Option.getD_some, dateValue] at hle
  omega

theorem parseTimeString_wellFormed (t : String) (h : WellFormedLabel t) :
    ∃ d, parseTimeString t = some d ∧ d.month ≤ 11 := by
  obtain ⟨m, y, hm, hlo, hhi, rfl⟩ := h
  obtain ⟨i, hi⟩ := Option.isSome_iff_exists.mp hm
  exact ⟨_, parseTimeString_label m i y hi hlo hhi,
    (monthTable_chars (m, i) (monthIndex_mem m i hi)).2⟩

/-- Claim C10. When every time label of the series of the selected countries has the form
`<English month name> <YYYY>` with `1980 ≤ YYYY ≤ 2029`, the sequence returned by
`getAllTimePoints` is in chronological order: each label is at or before every later
one (in particular the next one) by the (year, month) that `parseTimeString` computes;
and for such a label `parseTimeString` gives the year `YYYY` and the month of the name. -/
theorem getAllTimePoints_chronological (v : Visualizer)
    (hlabels : ∀ c ∈ v.selectedCountries, ∀ e,
      (v.countryData c = some e ∨ v.countryDataOOS c = some e) →
      ∀ row ∈ e.data, WellFormedLabel row.Time) :
    List.Chain' ChronoLE (getAllTimePoints v) ∧
    List.Pairwise ChronoLE (getAllTimePoints v) ∧
    ∀ (m : String) (i y : ℕ), monthIndex m = some i → 1980 ≤ y → y ≤ 2029 →
      parseTimeString (m ++ " " ++ toString y) = some { year := y, month := i } := by
  have hwf : ∀ t ∈ getAllTimePoints v, WellFormedLabel t := by
    intro t ht
    obtain ⟨c, hc, e, he, row, hrow, rfl⟩ := (mem_getAllTimePoints v t).mp ht
    exact hlabels c hc e he row hrow
  have hcollect : ∀ t ∈ collectTimePoints v, ∃ d, parseTimeString t = some d := by
    intro t ht
    obtain ⟨d, hd, -⟩ :=
      parseTimeString_wellFormed t (hwf t ((getAllTimePoints_perm v).mem_iff.mpr ht))
    exact ⟨d, hd⟩
  have hpair : List.Pairwise ChronoLE (getAllTimePoints v) := by
    refine List.Pairwise.imp_of_mem ?_ (sortTimePoints_pairwise _ hcollect)
    intro a b ha hb hle
    obtain ⟨da, hda, hma⟩ := parseTimeString_wellFormed a (hwf a ha)
    obtain ⟨db, hdb, hmb⟩ := parseTimeString_wellFormed b (hwf b hb)
    exact chronoLE_of_timeKey_le a b da db hda hdb hma hmb hle
  exact ⟨List.Pairwise.chain' hpair, hpair, parseTimeString_label⟩

theorem getAllTimePoints_chronological_witness :
    List.Chain' ChronoLE (getAllTimePoints (latestOnlyUS "latest")) ∧
    List.Pairwise ChronoLE (getAllTimePoints (latestOnlyUS "latest")) ∧
    ∀ (m : String) (i y : ℕ), monthIndex m = some i → 1980 ≤ y → y ≤ 2029 →
      parseTimeString (m ++ " " ++ toString y) = some { year := y, month := i } :=
  getAllTimePoints_chronological (latestOnlyUS "latest") (by
    intro c hc e he row hrow
    have hc' : c = "US" := List.mem_singleton.mp hc
    subst hc'
    have he' : e = sampleLatest := by
      rcases he with he | he
      · exact (Option.some.inj he).symm
      · cases he
    subst he'
    have hmem : row.Time ∈ ["Dec 2019", "Jan 2020", "Feb 2020"] := by
      revert row
      decide
    simp only [List.mem_cons, List.mem_singleton, List.not_mem_nil, or_false] at hmem
    rcases hmem with h | h | h
    · exact ⟨"Dec", 2019, by decide, by decide, by decide, by rw [h]; decide⟩
    · exact ⟨"Jan", 2020, by decide, by decide, by decide, by rw [h]; decide⟩
    · exact ⟨"Feb", 2020, by decide, by decide, by decide, by rw [h]; decide⟩)

/-! ### The default year -/

/-- Claim C11. `parseTimeString` is a total function on strings, and for a label that
contains none of the substrings `198`, `199`, `200`, `201`, `202` the year it assigns is
2020, whatever the month word is (a label of year 2030 or 1975 is dated in 2020). -/
theorem parseTimeString_default_year (timeStr : String)
    (h198 : includes timeStr.data "198".data = false)
    (h199 : includes timeStr.data "199".data = false)
    (h200 : includes timeStr.data "200".data = false)
    (h201 : includes timeStr.data "201".data = false)
    (h202 : includes timeStr.data "202".data = false) :
    parseYear timeStr = 2020 ∧
    parseTimeString timeStr =
      (monthIndex (parseMonth timeStr)).map (fun m => { year := 2020, month := m }) ∧
    ∀ d, parseTimeString timeStr = some d → d.year = 2020 := by
  have hy : parseYear timeStr = 2020 := by
    simp [parseYear, h198, h199, h200, h201, h202]
  refine ⟨hy, by simp [parseTimeString, hy], ?_⟩
  intro d hd
  simp only [parseTimeString, hy] at hd
  cases hm : monthIndex (parseMonth timeStr) with
  | none => simp [hm] at hd
  | some m =>
    simp only [hm, Option.map_some', Option.some.injEq] at hd
    rw [← hd]

theorem parseTimeString_default_year_witness :
    parseYear "Jan 2030" = 2020 ∧
    parseTimeString "Jan 2030" =
      (monthIndex (parseMonth "Jan 2030")).map (fun m => { year := 2020, month := m }) ∧
    ∀ d, parseTimeString "Jan 2030" = some d → d.year = 2020 :=
  parseTimeString_default_year "Jan 2030" (by decide) (by decide) (by decide) (by decide)
    (by decide)


/-! ### Pixels outside the plot -/

theorem dataIndexOnScale_left (xScale : XScale) (len : ℕ) (x : ℚ) (hlen : 1 ≤ len)
    (_hplot : xScale.left < xScale.right) (hx : x ≤ xScale.left) :
    dataIndexOnScale xScale len x = some 0 := by
  have hne : len ≠ 0 := by omega
  have hc : max xScale.left (min x xScale.right) = xScale.left :=
    max_eq_left (le_trans (min_le_left _ _) hx)
  have h0 : (0 : ℤ) ≤ (len : ℤ) - 1 := by omega
  simp only [dataIndexOnScale, hne, if_false, hc, sub_self, zero_div, zero_mul, mathRound]
  norm_num

theorem dataIndexOnScale_right (xScale : XScale) (len : ℕ) (x : ℚ) (hlen : 1 ≤ len)
    (hplot : xScale.left < xScale.right) (hx : xScale.right ≤ x) :
    dataIndexOnScale xScale len x = some ((len : ℤ) - 1) := by
  have hne : len ≠ 0 := by omega
  have hc : max xScale.left (min x xScale.right) = xScale.right := by
    rw [min_eq_right hx]
    exact max_eq_right hplot.le
  have hw : xScale.right - xScale.left ≠ 0 := by
    intro h
    linarith
  have h0 : (0 : ℤ) ≤ (len : ℤ) - 1 := by omega
  have hround : mathRound ((((len : ℤ) - 1 : ℤ) : ℚ)) = (len : ℤ) - 1 := by
    unfold mathRound
    rw [Int.floor_eq_iff]
    constructor <;> push_cast <;> linarith
  simp only [dataIndexOnScale, hne, if_false, hc, div_self hw, one_mul, hround, min_self]
  rw [max_eq_right h0]

/-- Claim C15. Pixels outside the plot are clamped, not rejected: on a plot with
`left < right` and a view of `n ≥ 1` records, `getDataIndexFromX` returns `0` for every
`x ≤ left` and `n - 1` for every `x ≥ right`. -/
theorem getDataIndexFromX_clamps (chart : Chart) (xScale : XScale) (data : List DataPoint)
    (x : ℚ) (hscale : chart.scalesX = some xScale) (hplot : xScale.left < xScale.right)
    (hdata : chart.filteredData = some data) (hn : 1 ≤ data.length) :
    (x ≤ xScale.left → getDataIndexFromX chart x = some 0) ∧
    (xScale.right ≤ x → getDataIndexFromX chart x = some ((data.length : ℤ) - 1)) := by
  simp only [getDataIndexFromX, hscale, hdata, Option.getD_some]
  exact ⟨dataIndexOnScale_left xScale data.length x hn hplot,
    dataIndexOnScale_right xScale data.length x hn hplot⟩

theorem getDataIndexFromX_clamps_witness :
    getDataIndexFromX sampleChart (-40) = some 0 ∧
    getDataIndexFromX sampleChart 700 = some (((3 : ℕ) : ℤ) - 1) :=
  ⟨(getDataIndexFromX_clamps sampleChart { left := 0, right := 600 } _ (-40) rfl
      (by norm_num) rfl (by decide)).1 (by norm_num),
    (getDataIndexFromX_clamps sampleChart { left := 0, right := 600 } _ 700 rfl
      (by norm_num) rfl (by decide)).2 (by norm_num)⟩

/-! ### Committing a drag -/

theorem mathRound_intCast (n : ℤ) : mathRound (n : ℚ) = n := by
  unfold mathRound
  rw [Int.floor_eq_iff]
  constructor <;> linarith

theorem dragChart_index_50 :
    getDataIndexFromX dragChart (clampToCanvas 600 50) = some 8 := by
  simp [getDataIndexFromX, dragChart, dataIndexOnScale, mathRound, clampToCanvas]
  norm_num

theorem dragChart_index_200 :
    getDataIndexFromX dragChart (clampToCanvas 600 200) = some 33 := by
  simp [getDataIndexFromX, dragChart, dataIndexOnScale, mathRound, clampToCanvas]
  norm_num

/-- Claim C12. A commit whose two pixels map to the same index (a click) leaves both
range sliders as they were and asks for no recomputation. The x scale, when the chart has
one, has `left ≠ right`: on a scale of zero width the source gets NaN for both pixels,
which is no index and is unequal to itself, so that no two pixels map to the same index
there. -/
theorem applySelection_click_noop (chart : Chart) (rectWidth : ℚ) (doc : RangeSliders)
    (a b : ℚ) (hs : chart.timeSelection.startX = some a)
    (he : chart.timeSelection.endX = some b)
    (_hwidth : ∀ xScale, chart.scalesX = some xScale → xScale.left ≠ xScale.right)
    (hsame : getDataIndexFromX chart (clampToCanvas rectWidth a) =
      getDataIndexFromX chart (clampToCanvas rectWidth b)) :
    (applySelection chart rectWidth doc).sliders = doc ∧
      (applySelection chart rectWidth doc).updated = false := by
  unfold applySelection
  simp only [hs, he, hsame]
  cases getDataIndexFromX chart (clampToCanvas rectWidth b) <;> simp

theorem applySelection_click_noop_witness :
    clickChart.scalesX = some { left := 0, right := 600 } ∧
    getDataIndexFromX clickChart (clampToCanvas 600 50) = some 8 ∧
    (applySelection clickChart 600 fullRange100).sliders = fullRange100 ∧
      (applySelection clickChart 600 fullRange100).updated = false :=
  ⟨rfl, dragChart_index_50,
    applySelection_click_noop clickChart 600 fullRange100 50 50 rfl rfl
      (by
        intro xScale h
        have hx : xScale = { left := 0, right := 600 } := (Option.some.inj h).symm
        rw [hx]
        norm_num)
      rfl⟩

theorem applySelection_commit (chart : Chart) (rectWidth : ℚ) (doc : RangeSliders)
    (a b : ℚ) (i j : ℤ) (hs : chart.timeSelection.startX = some a)
    (he : chart.timeSelection.endX = some b)
    (hi : getDataIndexFromX chart (clampToCanvas rectWidth a) = some i)
    (hj : getDataIndexFromX chart (clampToCanvas rectWidth b) = some j) (hij : i ≠ j) :
    (applySelection chart rectWidth doc).sliders =
      { doc with startValue := (committedRange chart doc i j).1,
                 endValue := (committedRange chart doc i j).2 } ∧
    (applySelection chart rectWidth doc).updated = chart.hasVisualizer := by
  unfold applySelection
  simp only [hs, he, hi, hj]
  simp [hij]

theorem finalRange_bounds (x y m : ℤ) (hm : 1 ≤ m) :
    0 ≤ max 0 (min x (m - 1)) ∧
      max 0 (min x (m - 1)) < max (max 0 (min x (m - 1)) + 1) (min y m) ∧
      max (max 0 (min x (m - 1)) + 1) (min y m) ≤ m := by
  have hle : max 0 (min x (m - 1)) ≤ m - 1 := max_le (by omega) (min_le_right _ _)
  refine ⟨le_max_left _ _, lt_of_lt_of_le (by omega) (le_max_left _ _), max_le (by omega) ?_⟩
  exact min_le_right _ _

theorem committedRange_bounds (chart : Chart) (doc : RangeSliders) (i j : ℤ)
    (hmax : 1 ≤ doc.max) :
    0 ≤ (committedRange chart doc i j).1 ∧
      (committedRange chart doc i j).1 < (committedRange chart doc i j).2 ∧
      (committedRange chart doc i j).2 ≤ doc.max := by
  simp only [committedRange]
  exact finalRange_bounds _ _ _ hmax

/-- Claim C13. For a commit with two distinct indices and a slider maximum
`maxIndex ≥ 1`, whatever the sliders hold, the range that `applySelection` writes
satisfies `0 ≤ finalStart < finalEnd ≤ maxIndex`. -/
theorem applySelection_valid_range (chart : Chart) (rectWidth : ℚ) (doc : RangeSliders)
    (a b : ℚ) (i j : ℤ) (hs : chart.timeSelection.startX = some a)
    (he : chart.timeSelection.endX = some b)
    (hi : getDataIndexFromX chart (clampToCanvas rectWidth a) = some i)
    (hj : getDataIndexFromX chart (clampToCanvas rectWidth b) = some j) (hij : i ≠ j)
    (hmax : 1 ≤ doc.max) :
    0 ≤ (applySelection chart rectWidth doc).sliders.startValue ∧
      (applySelection chart rectWidth doc).sliders.startValue <
        (applySelection chart rectWidth doc).sliders.endValue ∧
      (applySelection chart rectWidth doc).sliders.endValue ≤ doc.max ∧
      (applySelection chart rectWidth doc).sliders.max = doc.max := by
  rw [(applySelection_commit chart rectWidth doc a b i j hs he hi hj hij).1]
  obtain ⟨h1, h2, h3⟩ := committedRange_bounds chart doc i j hmax
  exact ⟨h1, h2, h3, rfl⟩

theorem applySelection_valid_range_witness :
    0 ≤ (applySelection dragChart 600 fullRange100).sliders.startValue ∧
      (applySelection dragChart 600 fullRange100).sliders.startValue <
        (applySelection dragChart 600 fullRange100).sliders.endValue ∧
      (applySelection dragChart 600 fullRange100).sliders.endValue ≤ fullRange100.max ∧
      (applySelection dragChart 600 fullRange100).sliders.max = fullRange100.max :=
  applySelection_valid_range dragChart 600 fullRange100 50 200 8 33 rfl rfl
    dragChart_index_50 dragChart_index_200 (by decide) (by decide)

theorem min_lt_max_of_ne (i j : ℤ) (hij : i ≠ j) : min i j < max i j := by
  rcases lt_or_gt_of_ne hij with h | h
  · rw [min_eq_left h.le, max_eq_right h.le]
    exact h
  · rw [min_eq_right h.le, max_eq_left h.le]
    exact h

/-- With the view showing exactly the active range, the committed endpoints are the
absolute indices under the two drag ends. -/
theorem committedRange_exact (chart : Chart) (doc : RangeSliders) (data : List DataPoint)
    (i j : ℤ) (hdata : chart.filteredData = some data)
    (hview : (data.length : ℤ) = doc.endValue - doc.startValue + 1)
    (h0 : 0 ≤ doc.startValue) (hlt : doc.startValue < doc.endValue)
    (hmax : doc.endValue ≤ doc.max)
    (hi0 : 0 ≤ i) (hi1 : i ≤ (data.length : ℤ) - 1)
    (hj0 : 0 ≤ j) (hj1 : j ≤ (data.length : ℤ) - 1) (hij : i ≠ j) :
    committedRange chart doc i j = (doc.startValue + min i j, doc.startValue + max i j) := by
  have hlen : data.length ≠ 0 := by
    intro h
    rw [h] at hview
    simp at hview
    omega
  have hden : max 1 ((data.length : ℤ) - 1) = doc.endValue - doc.startValue := by
    rw [max_eq_right (by omega)]
    omega
  have hne : ((doc.endValue - doc.startValue : ℤ) : ℚ) ≠ 0 := by
    have : doc.endValue - doc.startValue ≠ 0 := by omega
    exact_mod_cast this
  have hround : ∀ k : ℤ,
      mathRound ((k : ℚ) / ((doc.endValue - doc.startValue : ℤ) : ℚ) *
        ((doc.endValue - doc.startValue : ℤ) : ℚ)) = k := by
    intro k
    rw [div_mul_cancel₀ _ hne]
    exact mathRound_intCast k
  simp only [committedRange, hdata, hlen, if_false, hden, hround]
  have hmin := min_lt_max_of_ne i j hij
  have hmin0 : 0 ≤ min i j := le_min hi0 hj0
  have hmax1 : max i j ≤ (data.length : ℤ) - 1 := max_le hi1 hj1
  have e1 : min (doc.startValue + min i j) (doc.max - 1) = doc.startValue + min i j :=
    min_eq_left (by omega)
  have e2 : max 0 (doc.startValue + min i j) = doc.startValue + min i j :=
    max_eq_right (by omega)
  have e3 : min (doc.startValue + max i j) doc.max = doc.startValue + max i j :=
    min_eq_left (by omega)
  have e4 : max (doc.startValue + min i j + 1) (doc.startValue + max i j) =
      doc.startValue + max i j := max_eq_right (by omega)
  rw [e1, e2, e3, e4]

/-- Claim C14. A commit made while the active range is `[curStart, curEnd]`,
`0 ≤ curStart < curEnd ≤ maxIndex`, with the view showing exactly that range
(`curEnd - curStart + 1` records), writes a range within the active one:
`curStart ≤ finalStart < finalEnd ≤ curEnd`. -/
theorem applySelection_within_active (chart : Chart) (rectWidth : ℚ) (doc : RangeSliders)
    (xScale : XScale) (data : List DataPoint) (a b : ℚ)
    (hscale : chart.scalesX = some xScale) (_hplot : xScale.left < xScale.right)
    (hdata : chart.filteredData = some data)
    (hview : (data.length : ℤ) = doc.endValue - doc.startValue + 1)
    (h0 : 0 ≤ doc.startValue) (hlt : doc.startValue < doc.endValue)
    (hmax : doc.endValue ≤ doc.max)
    (hs : chart.timeSelection.startX = some a) (he : chart.timeSelection.endX = some b)
    (hcommit : getDataIndexFromX chart (clampToCanvas rectWidth a) ≠
      getDataIndexFromX chart (clampToCanvas rectWidth b)) :
    doc.startValue ≤ (applySelection chart rectWidth doc).sliders.startValue ∧
      (applySelection chart rectWidth doc).sliders.startValue <
        (applySelection chart rectWidth doc).sliders.endValue ∧
      (applySelection chart rectWidth doc).sliders.endValue ≤ doc.endValue := by
  have hn : 1 ≤ data.length := by omega
  have hrange : ∀ x : ℚ, ∃ i : ℤ, getDataIndexFromX chart x = some i ∧ 0 ≤ i ∧
      i ≤ (data.length : ℤ) - 1 := by
    intro x
    simp only [getDataIndexFromX, hscale, hdata, Option.getD_some]
    exact dataIndexOnScale_range xScale data.length x hn
  obtain ⟨i, hi, hi0, hi1⟩ := hrange (clampToCanvas rectWidth a)
  obtain ⟨j, hj, hj0, hj1⟩ := hrange (clampToCanvas rectWidth b)
  have hij : i ≠ j := by
    intro h
    apply hcommit
    rw [hi, hj, h]
  rw [(applySelection_commit chart rectWidth doc a b i j hs he hi hj hij).1,
    committedRange_exact chart doc data i j hdata hview h0 hlt hmax hi0 hi1 hj0 hj1 hij]
  simp only
  have hmin0 : 0 ≤ min i j := le_min hi0 hj0
  have hmax1 : max i j ≤ (data.length : ℤ) - 1 := max_le hi1 hj1
  have hmin := min_lt_max_of_ne i j hij
  omega

theorem applySelection_within_active_witness :
    (applySelection dragChart 600 fullRange100).sliders =
      { startValue := 8, endValue := 33, max := 99 } ∧
    fullRange100.startValue ≤ (applySelection dragChart 600 fullRange100).sliders.startValue ∧
      (applySelection dragChart 600 fullRange100).sliders.startValue <
        (applySelection dragChart 600 fullRange100).sliders.endValue ∧
      (applySelection dragChart 600 fullRange100).sliders.endValue ≤ fullRange100.endValue :=
  ⟨by
    rw [(applySelection_commit dragChart 600 fullRange100 50 200 8 33 rfl rfl
      dragChart_index_50 dragChart_index_200 (by decide)).1]
    simp [committedRange, dragChart, fullRange100, mathRound]
    norm_num,
   applySelection_within_active dragChart 600 fullRange100 { left := 0, right := 600 } _ 50 200
    rfl (by norm_num) rfl (by decide) (by decide) (by decide) (by decide) rfl rfl
    (by rw [dragChart_index_50, dragChart_index_200]; decide)⟩

/-! ### Slider input -/

/-- Claim C16, the code at the failing inputs. Three unified time points (`n = 3`), no
error shown. With both sliders at 2 and the start slider active, `handleRangeChange`
leaves the range at `[2, 2]`; with both at 0 and the end slider active it leaves `[0, 0]`.
In both cases `rangeStart < rangeEnd` fails. -/
theorem handleRangeChange_edge_collapse :
    (getAllTimePoints (latestOnlyUS "latest")).length = 3 ∧
    (latestOnlyUS "latest").hasOOSError = false ∧
    (handleRangeChange (latestOnlyUS "latest") slidersAtRightEdge
      ActiveElement.startSlider).1 = { startValue := 2, endValue := 2, max := 2 } ∧
    (handleRangeChange (latestOnlyUS "latest") slidersAtLeftEdge
      ActiveElement.endSlider).1 = { startValue := 0, endValue := 0, max := 2 } := by
  refine ⟨by decide, rfl, by decide, by decide⟩

/-- Away from the two edges the handler restores the order: with no error shown,
`n ≥ 2` time points and both values in `[0, n - 1]`, the result has
`rangeStart < rangeEnd` within `[0, n - 1]` provided the start slider, when it is the
active one, is not at `n - 1`, and the end slider, when the start slider is not the
active one, is not at `0`. -/
theorem handleRangeChange_inner (v : Visualizer) (doc : RangeSliders)
    (active : ActiveElement) (herr : v.hasOOSError = false)
    (_hn : 2 ≤ (getAllTimePoints v).length)
    (hs0 : 0 ≤ doc.startValue) (hs1 : doc.startValue ≤ ((getAllTimePoints v).length : ℤ) - 1)
    (he0 : 0 ≤ doc.endValue) (he1 : doc.endValue ≤ ((getAllTimePoints v).length : ℤ) - 1)
    (hstart : active = ActiveElement.startSlider →
      doc.startValue < doc.endValue ∨ doc.startValue ≤ ((getAllTimePoints v).length : ℤ) - 2)
    (hend : active ≠ ActiveElement.startSlider →
      doc.startValue < doc.endValue ∨ 1 ≤ doc.endValue) :
    0 ≤ (handleRangeChange v doc active).1.startValue ∧
      (handleRangeChange v doc active).1.startValue <
        (handleRangeChange v doc active).1.endValue ∧
      (handleRangeChange v doc active).1.endValue ≤ ((getAllTimePoints v).length : ℤ) - 1 := by
  unfold handleRangeChange
  simp only [herr, Bool.false_eq_true, if_false]
  by_cases hge : doc.startValue ≥ doc.endValue
  · simp only [hge, if_true]
    by_cases hact : active = ActiveElement.startSlider
    · simp only [hact, if_true]
      have := hstart hact
      have hmin : min (doc.startValue + 1) (((getAllTimePoints v).length : ℤ) - 1) =
          doc.startValue + 1 := min_eq_left (by omega)
      rw [hmin]
      omega
    · simp only [hact, if_false]
      have := hend hact
      have hmax : max (doc.endValue - 1) 0 = doc.endValue - 1 := max_eq_left (by omega)
      rw [hmax]
      omega
  · simp only [hge, if_false]
    omega

/-! ### Recession bands -/

theorem flagAt_of_length_le (flags : List Bool) (i : ℕ) (h : flags.length ≤ i) :
    flagAt flags i = false := by
  unfold flagAt
  rw [List.getD_eq_default _ _ h]

theorem lt_length_of_flagAt (flags : List Bool) (i : ℕ) (h : flagAt flags i = true) :
    i < flags.length := by
  by_contra hn
  rw [flagAt_of_length_le flags i (by omega)] at h
  cases h

theorem extendRun_spec (flags : List Bool) (fuel e : ℕ) (hfuel : flags.length ≤ e + 1 + fuel) :
    e ≤ extendRun flags fuel e ∧
      (∀ j, e < j → j ≤ extendRun flags fuel e → flagAt flags j = true) ∧
      flagAt flags (extendRun flags fuel e + 1) = false := by
  induction fuel generalizing e with
  | zero =>
    refine ⟨le_refl _, fun j h1 h2 => ?_, ?_⟩
    · simp only [extendRun] at h2
      omega
    · simp only [extendRun]
      exact flagAt_of_length_le flags _ (by omega)
  | succ fuel ih =>
    unfold extendRun
    by_cases h1 : e < flags.length - 1
    · by_cases h2 : flagAt flags (e + 1) = true
      · simp only [h1, h2, if_true]
        obtain ⟨ha, hb, hc⟩ := ih (e + 1) (by omega)
        refine ⟨by omega, fun j hj1 hj2 => ?_, hc⟩
        by_cases hj : j = e + 1
        · rw [hj]
          exact h2
        · exact hb j (by omega) hj2
      · have h2' : flagAt flags (e + 1) = false := by simpa using h2
        have hstay : (if e < flags.length - 1 then
            if flagAt flags (e + 1) = true then extendRun flags fuel (e + 1) else e
          else e) = e := by
          rw [if_pos h1, if_neg h2]
        rw [hstay]
        exact ⟨le_refl _, fun j hj1 hj2 => by omega, h2'⟩
    · simp only [h1, if_false]
      exact ⟨le_refl _, fun j hj1 hj2 => by omega, flagAt_of_length_le flags _ (by omega)⟩

theorem IsMaximalRun.end_unique {flags : List Bool} {s e e' : ℕ}
    (h : IsMaximalRun flags s e) (h' : IsMaximalRun flags s e') : e = e' := by
  obtain ⟨h1, -, h3, -, h5⟩ := h
  obtain ⟨h1', -, h3', -, h5'⟩ := h'
  rcases Nat.lt_trichotomy e e' with hlt | heq | hgt
  · have := h3' (e + 1) (by omega) (by omega)
    rw [h5] at this
    cases this
  · exact heq
  · have := h3 (e' + 1) (by omega) (by omega)
    rw [h5'] at this
    cases this

theorem IsMaximalRun.start_unique {flags : List Bool} {s s' e : ℕ}
    (h : IsMaximalRun flags s e) (h' : IsMaximalRun flags s' e) : s = s' := by
  obtain ⟨h1, -, h3, h4, -⟩ := h
  obtain ⟨h1', -, h3', h4', -⟩ := h'
  rcases Nat.lt_trichotomy s s' with hlt | heq | hgt
  · rcases h4' with h0 | hf
    · omega
    · have := h3 (s' - 1) (by omega) (by omega)
      rw [hf] at this
      cases this
  · exact heq
  · rcases h4 with h0 | hf
    · omega
    · have := h3' (s - 1) (by omega) (by omega)
      rw [hf] at this
      cases this

theorem isMaximalRun_extendRun (flags : List Bool) (i : ℕ) (hflag : flagAt flags i = true)
    (hstart : i = 0 ∨ flagAt flags (i - 1) = false) :
    IsMaximalRun flags i (extendRun flags flags.length i) := by
  obtain ⟨ha, hb, hc⟩ := extendRun_spec flags flags.length i (by omega)
  refine ⟨ha, ?_, fun j hj1 hj2 => ?_, hstart, hc⟩
  · by_cases he : extendRun flags flags.length i = i
    · rw [he]
      exact lt_length_of_flagAt flags i hflag
    · exact lt_length_of_flagAt flags _ (hb _ (by omega) (le_refl _))
  · by_cases hj : j = i
    · rw [hj]
      exact hflag
    · exact hb j (by omega) hj2

/-- The bands found from index `i` on are those of the maximal runs that start at or
after `i`, provided `i` is not inside a run. -/
theorem mem_scanBands (flags : List Bool) (fuel i : ℕ) (hfuel : flags.length ≤ i + fuel)
    (hi : flagAt flags i = true → i = 0 ∨ flagAt flags (i - 1) = false) (a e : ℕ) :
    (a, e) ∈ scanBands flags fuel i ↔
      ∃ s, i ≤ s ∧ IsMaximalRun flags s e ∧ a = s - 1 := by
  induction fuel generalizing i with
  | zero =>
    simp only [scanBands, List.not_mem_nil, false_iff]
    rintro ⟨s, hs, ⟨h1, h2, -⟩, -⟩
    omega
  | succ fuel ih =>
    unfold scanBands
    by_cases hlt : i < flags.length
    · by_cases hflag : flagAt flags i = true
      · simp only [hlt, hflag, if_true, List.mem_cons]
        have hrun := isMaximalRun_extendRun flags i hflag (hi hflag)
        have hnext := ih (extendRun flags flags.length i + 1) (by have := hrun.1; omega)
          (fun h => by rw [hrun.2.2.2.2] at h; cases h)
        rw [hnext]
        constructor
        · rintro (heq | ⟨s, hs, hs2, hs3⟩)
          · obtain ⟨rfl, rfl⟩ := Prod.mk.inj heq
            exact ⟨i, le_refl _, hrun, rfl⟩
          · exact ⟨s, by have := hrun.1; omega, hs2, hs3⟩
        · rintro ⟨s, hs, hs2, hs3⟩
          by_cases hsi : s = i
          · left
            subst hsi
            rw [hs3, IsMaximalRun.end_unique hs2 hrun]
          · right
            refine ⟨s, ?_, hs2, hs3⟩
            by_contra hcon
            have hsle : s ≤ extendRun flags flags.length i := by omega
            rcases hs2.2.2.2.1 with h0 | hf
            · omega
            · have := hrun.2.2.1 (s - 1) (by omega) (by omega)
              rw [hf] at this
              cases this
      · have hflag' : flagAt flags i = false := by simpa using hflag
        simp only [hlt, hflag', if_true, Bool.false_eq_true, if_false]
        rw [ih (i + 1) (by omega) (fun _ => Or.inr (by simpa using hflag'))]
        constructor
        · rintro ⟨s, hs, hs2, hs3⟩
          exact ⟨s, by omega, hs2, hs3⟩
        · rintro ⟨s, hs, hs2, hs3⟩
          refine ⟨s, ?_, hs2, hs3⟩
          by_contra hcon
          have hsi : s = i := by omega
          have := hs2.2.2.1 s (le_refl _) hs2.1
          rw [hsi, hflag'] at this
          cases this
    · simp only [hlt, if_false, List.not_mem_nil, false_iff]
      rintro ⟨s, hs, ⟨h1, h2, -⟩, -⟩
      omega

theorem le_snd_of_mem_scanBands (flags : List Bool) (fuel i : ℕ) (b : ℕ × ℕ)
    (hb : b ∈ scanBands flags fuel i) : i ≤ b.2 := by
  induction fuel generalizing i with
  | zero => simp [scanBands] at hb
  | succ fuel ih =>
    unfold scanBands at hb
    by_cases hlt : i < flags.length
    · by_cases hflag : flagAt flags i = true
      · simp only [hlt, hflag, if_true, List.mem_cons] at hb
        have hle := (extendRun_spec flags flags.length i (by omega)).1
        rcases hb with rfl | hb
        · exact hle
        · have := ih _ hb
          omega
      · have hflag' : flagAt flags i = false := by simpa using hflag
        simp only [hlt, hflag', if_true, Bool.false_eq_true, if_false] at hb
        have := ih _ hb
        omega
    · simp [hlt] at hb

theorem pairwise_scanBands (flags : List Bool) (fuel i : ℕ) :
    (scanBands flags fuel i).Pairwise (fun b c => b.2 < c.2) := by
  induction fuel generalizing i with
  | zero => simp [scanBands]
  | succ fuel ih =>
    unfold scanBands
    by_cases hlt : i < flags.length
    · by_cases hflag : flagAt flags i = true
      · simp only [hlt, hflag, if_true]
        refine List.Pairwise.cons (fun c hc => ?_) (ih _)
        have := le_snd_of_mem_scanBands flags fuel _ c hc
        show extendRun flags flags.length i < c.2
        omega
      · have hflag' : flagAt flags i = false := by simpa using hflag
        simp only [hlt, hflag', if_true, Bool.false_eq_true, if_false]
        exact ih _
    · simp [hlt]

theorem mem_recessionBands (flags : List Bool) (a e : ℕ) :
    (a, e) ∈ recessionBands flags ↔ ∃ s, IsMaximalRun flags s e ∧ a = s - 1 := by
  unfold recessionBands
  rw [mem_scanBands flags flags.length 0 (by omega) (fun _ => Or.inl rfl)]
  simp

theorem nodup_recessionBands (flags : List Bool) : (recessionBands flags).Nodup := by
  refine (pairwise_scanBands flags flags.length 0).imp ?_
  intro b c hlt heq
  rw [heq] at hlt
  exact absurd hlt (lt_irrefl _)

/-- More fuel than the length of the view does not change the scan. -/
theorem scanBands_fuel (flags : List Bool) (fuel i : ℕ) (hfuel : flags.length ≤ i + fuel) :
    scanBands flags (fuel + 1) i = scanBands flags fuel i := by
  induction fuel generalizing i with
  | zero =>
    have : ¬ i < flags.length := by omega
    simp [scanBands, this]
  | succ fuel ih =>
    rw [scanBands]
    conv_rhs => rw [scanBands]
    by_cases hlt : i < flags.length
    · by_cases hflag : flagAt flags i = true
      · simp only [hlt, hflag, if_true]
        have hle := (extendRun_spec flags flags.length i (by omega)).1
        have hnext : flags.length ≤ extendRun flags flags.length i + 1 + fuel := by omega
        rw [ih _ hnext]
      · have hflag' : flagAt flags i = false := by simpa using hflag
        simp only [hlt, hflag', if_true, Bool.false_eq_true, if_false]
        rw [ih (i + 1) (by omega)]
    · simp [hlt]

theorem bandsMatchRuns_recessionBands (flags : List Bool) :
    BandsMatchRuns flags (recessionBands flags) := by
  refine ⟨pairwise_scanBands flags flags.length 0, fun s e hrun => ?_, fun b hb => ?_,
    fun j => ?_⟩
  · exact (mem_recessionBands flags _ _).mpr ⟨s, hrun, rfl⟩
  · obtain ⟨a, e⟩ := b
    exact (mem_recessionBands flags a e).mp hb
  · constructor
    · rintro ⟨⟨a, e⟩, hb, hj⟩
      obtain ⟨s, hrun, ha⟩ := (mem_recessionBands flags a e).mp hb
      simp only [shadedCells, List.mem_range'_1] at hj
      exact ⟨s, e, hrun, by omega, by omega⟩
    · rintro ⟨s, e, hrun, h1, h2⟩
      refine ⟨(s - 1, e), (mem_recessionBands flags _ _).mpr ⟨s, hrun, rfl⟩, ?_⟩
      simp only [shadedCells, List.mem_range'_1]
      omega

/-- Claim C17. In the band scan every maximal run `s..e` of flagged view indices gives
exactly one band, from index `max 0 (s - 1)` to index `e`, and nothing else is shaded.
This holds of the scan itself and thereby of both branches of `beforeDatasetsDraw`. -/
theorem recessionBands_maximal_runs :
    (∀ flags : List Bool, BandsMatchRuns flags (recessionBands flags)) ∧
    (∀ (v : Visualizer) (estimationMode country : String) (filteredData : List DataPoint),
      BandsMatchRuns
        (filteredData.map (fun dataPoint =>
          isRecession (recessionDataSingle v estimationMode country dataPoint)))
        (singleCountryBands v estimationMode country filteredData) ∧
      BandsMatchRuns
        (filteredData.map (fun dataPoint =>
          isRecession (recessionDataMulti v estimationMode country dataPoint)))
        (multiCountryBands v estimationMode country filteredData)) :=
  ⟨bandsMatchRuns_recessionBands,
    fun _ _ _ _ => ⟨bandsMatchRuns_recessionBands _, bandsMatchRuns_recessionBands _⟩⟩

/-! ### The source of the recession flag -/

/-- Claim C18, the code at the failing input. US alone, mode `realtime`, four time points.
The claim, like the comment over the lookup ("Always use latest data for recession bands,
even in real-time mode"), asks for the flag of the Latest series everywhere. At `Mar 2020`
the Latest series has no row and the out-of-sample row is flagged: the scan's flag is
`true` there, in both branches, while the Latest series gives no flag. -/
theorem recessionFlag_realtime_fallback :
    getAllTimePoints (usBothKinds "realtime") =
      ["Dec 2019", "Jan 2020", "Feb 2020", "Mar 2020"] ∧
    (getFilteredData (usBothKinds "realtime") fullRange4).1.map
        (fun r => isRecession (recessionDataSingle (usBothKinds "realtime") "realtime" "US" r)) =
      [false, false, true, true] ∧
    (getFilteredData (usBothKinds "realtime") fullRange4).1.map
        (fun r => isRecession (recessionDataMulti (usBothKinds "realtime") "realtime" "US" r)) =
      [false, false, true, true] ∧
    (getAllTimePoints (usBothKinds "realtime")).map
        (fun t => isRecession (some (latestValue (usBothKinds "realtime") t "US"))) =
      [false, false, true, false] := by
  refine ⟨by decide, by decide, by decide, by decide⟩

theorem latestOrOwn_buildDataPoint (v : Visualizer) (t c : String) (own : Value)
    (hTime : "Time" ∉ v.selectedCountries)
    (hown : getKey (buildDataPoint v t) c = some own) :
    isRecession (latestOrOwn v c (buildDataPoint v t)) =
      if latestValue v t c = Value.null then isRecession (some own)
      else isRecession (some (latestValue v t c)) := by
  unfold latestOrOwn findLatestRow latestValue findRow
  rw [getKey_Time_buildDataPoint v t hTime]
  cases hl : v.countryData c with
  | none => simp [hown]
  | some entry =>
    cases hf : entry.data.find? (fun row => row.Time = t) with
    | none => simp [hf, hown]
    | some row => simp [hf]

theorem isRecession_if_null (x : Value) :
    (if x = Value.null then isRecession (some x) else isRecession (some x)) =
      isRecession (some x) := by
  split <;> rfl

/-- Where the scan takes the flag from, mode by mode. In every record of
`getFilteredData`, with `t` its `Time`, and for every available country: in the modes
`latest` and `both` the flag the scan uses is
the `Recession` field of the Latest row at `t` (no flag when there is none); in mode
`realtime` it is that field when the Latest series has a row at `t`, and otherwise the
scan falls back to the record's own sub-record, the out-of-sample row at `t`. -/
theorem recessionFlag_source (v : Visualizer) (doc : Sliders)
    (hTime : "Time" ∉ v.selectedCountries)
    (hOOS : ∀ a ∈ v.selectedCountries, ∀ b ∈ v.selectedCountries, a ≠ b ++ "_OOS") :
    ∀ r ∈ (getFilteredData v doc).1, ∃ t, getKey r "Time" = some (Value.str t) ∧
      ∀ c ∈ availableCountries v,
        ((v.estimationMode = "latest" ∨ v.estimationMode = "both") →
          isRecession (recessionDataSingle v v.estimationMode c r) =
            isRecession (some (latestValue v t c)) ∧
          isRecession (recessionDataMulti v v.estimationMode c r) =
            isRecession (some (latestValue v t c))) ∧
        (v.estimationMode = "realtime" →
          isRecession (recessionDataSingle v v.estimationMode c r) =
            (if latestValue v t c = Value.null then isRecession (some (oosValue v t c))
             else isRecession (some (latestValue v t c))) ∧
          isRecession (recessionDataMulti v v.estimationMode c r) =
            (if latestValue v t c = Value.null then isRecession (some (oosValue v t c))
             else isRecession (some (latestValue v t c)))) := by
  intro r hr
  obtain ⟨t, rfl⟩ := mem_getFilteredData v doc r hr
  refine ⟨t, getKey_Time_buildDataPoint v t hTime, fun c hc => ⟨fun hm => ?_, fun hm => ?_⟩⟩
  · rcases hm with hm | hm
    · have hown := getKey_country_latest v t c hm hc
      simp [recessionDataSingle, recessionDataMulti, hm, hown]
    · have hown := (getKey_country_both v t c hm hOOS hc).1
      have h := latestOrOwn_buildDataPoint v t c _ hTime hown
      rw [isRecession_if_null] at h
      simp [recessionDataSingle, recessionDataMulti, hm, hown, h]
  · have hown := getKey_country_realtime v t c hm hc
    have h := latestOrOwn_buildDataPoint v t c _ hTime hown
    simp [recessionDataSingle, recessionDataMulti, hm, h]

theorem recessionFlag_source_witness :
    ("Time" ∉ (usBothKinds "realtime").selectedCountries ∧
      ∀ a ∈ (usBothKinds "realtime").selectedCountries,
        ∀ b ∈ (usBothKinds "realtime").selectedCountries, a ≠ b ++ "_OOS") ∧
    ∀ r ∈ (getFilteredData (usBothKinds "realtime") fullRange4).1,
      ∃ t, getKey r "Time" = some (Value.str t) ∧
      ∀ c ∈ availableCountries (usBothKinds "realtime"),
        (((usBothKinds "realtime").estimationMode = "latest" ∨
            (usBothKinds "realtime").estimationMode = "both") →
          isRecession (recessionDataSingle (usBothKinds "realtime")
              (usBothKinds "realtime").estimationMode c r) =
            isRecession (some (latestValue (usBothKinds "realtime") t c)) ∧
          isRecession (recessionDataMulti (usBothKinds "realtime")
              (usBothKinds "realtime").estimationMode c r) =
            isRecession (some (latestValue (usBothKinds "realtime") t c))) ∧
        ((usBothKinds "realtime").estimationMode = "realtime" →
          isRecession (recessionDataSingle (usBothKinds "realtime")
              (usBothKinds "realtime").estimationMode c r) =
            (if latestValue (usBothKinds "realtime") t c = Value.null then
              isRecession (some (oosValue (usBothKinds "realtime") t c))
             else isRecession (some (latestValue (usBothKinds "realtime") t c))) ∧
          isRecession (recessionDataMulti (usBothKinds "realtime")
              (usBothKinds "realtime").estimationMode c r) =
            (if latestValue (usBothKinds "realtime") t c = Value.null then
              isRecession (some (oosValue (usBothKinds "realtime") t c))
             else isRecession (some (latestValue (usBothKinds "realtime") t c)))) :=
  ⟨⟨by decide, by decide⟩,
    recessionFlag_source (usBothKinds "realtime") fullRange4 (by decide) (by decide)⟩

/-! ### The number of unified time points -/

/-- Claim C19 as stated, refuted. US alone, mode `latest`, a duplicate-free Latest series
of three rows, and an out-of-sample series with the further label `Mar 2020`:
`getAllTimePoints` has four labels. -/
theorem getAllTimePoints_length_counterexample :
    (usBothKinds "latest").selectedCountries = ["US"] ∧
    (usBothKinds "latest").estimationMode = "latest" ∧
    (usBothKinds "latest").countryData "US" = some sampleLatest ∧
    (sampleLatest.data.map (fun row => row.Time)).Nodup ∧
    sampleLatest.data.length = 3 ∧
    (getAllTimePoints (usBothKinds "latest")).length = 4 := by
  refine ⟨rfl, rfl, rfl, by decide, rfl, by decide⟩

/-- Claim C19 as amended. For a single selected country with a duplicate-free Latest
series, in every mode, `getAllTimePoints` has at least as many labels as the Latest
series has rows, and exactly as many when every label of the country's out-of-sample
series, if one is loaded, also occurs in the Latest series. -/
theorem getAllTimePoints_length_latest (v : Visualizer) (country : String)
    (latest : CountryEntry) (hsel : v.selectedCountries = [country])
    (hlatest : v.countryData country = some latest)
    (hnodup : (latest.data.map (fun row => row.Time)).Nodup) :
    latest.data.length ≤ (getAllTimePoints v).length ∧
    ((∀ oos, v.countryDataOOS country = some oos →
        ∀ row ∈ oos.data, ∃ r ∈ latest.data, r.Time = row.Time) →
      (getAllTimePoints v).length = latest.data.length) := by
  have hsub : latest.data.map (fun row => row.Time) ⊆ getAllTimePoints v := by
    intro t ht
    obtain ⟨row, hrow, rfl⟩ := List.mem_map.mp ht
    exact (mem_getAllTimePoints v _).mpr
      ⟨country, by simp [hsel], latest, Or.inl hlatest, row, hrow, rfl⟩
  constructor
  · have := (List.subperm_of_subset hnodup hsub).length_le
    simpa using this
  · intro hoos
    have hperm : (getAllTimePoints v).Perm (latest.data.map (fun row => row.Time)) := by
      rw [List.perm_ext_iff_of_nodup (getAllTimePoints_nodup v) hnodup]
      intro t
      constructor
      · intro ht
        obtain ⟨c, hc, e, he, row, hrow, rfl⟩ := (mem_getAllTimePoints v t).mp ht
        have hcc : c = country := by simpa [hsel] using hc
        subst hcc
        rcases he with he | he
        · rw [hlatest] at he
          cases he
          exact List.mem_map.mpr ⟨row, hrow, rfl⟩
        · obtain ⟨r, hr, hrt⟩ := hoos e he row hrow
          exact List.mem_map.mpr ⟨r, hr, hrt⟩
      · exact fun ht => hsub ht
    simpa using hperm.length_eq

theorem getAllTimePoints_length_latest_witness :
    sampleLatest.data.length ≤ (getAllTimePoints (latestOnlyUS "latest")).length ∧
    ((∀ oos, (latestOnlyUS "latest").countryDataOOS "US" = some oos →
        ∀ row ∈ oos.data, ∃ r ∈ sampleLatest.data, r.Time = row.Time) →
      (getAllTimePoints (latestOnlyUS "latest")).length = sampleLatest.data.length) :=
  getAllTimePoints_length_latest (latestOnlyUS "latest") "US" sampleLatest rfl rfl
    (by decide)

/-! ### Export of a single country -/

theorem loadCountryData_stores (v : Visualizer) (country csvText : String)
    (parsed : ParseResult) (hfresh : v.countryData country = none)
    (herrors : parsed.hasErrors = false) (hrows : parsed.data ≠ []) :
    (loadCountryData v country (FetchResult.ok csvText) parsed).countryData country =
      some { data := processCountryData parsed.data, csvText := csvText } := by
  have hlen : parsed.data.length ≠ 0 := by simpa using hrows
  simp [loadCountryData, hfresh, herrors, hlen, storeSet]

theorem loadCountryData_cached (v : Visualizer) (country : String) (entry : CountryEntry)
    (fetched : FetchResult) (parsed : ParseResult)
    (hcached : v.countryData country = some entry) :
    loadCountryData v country fetched parsed = v := by
  simp [loadCountryData, hcached]

theorem loadCountryData_selection (v : Visualizer) (country : String)
    (fetched : FetchResult) (parsed : ParseResult) :
    (loadCountryData v country fetched parsed).selectedCountries = v.selectedCountries ∧
      (loadCountryData v country fetched parsed).estimationMode = v.estimationMode := by
  unfold loadCountryData
  cases v.countryData country with
  | some _ => exact ⟨rfl, rfl⟩
  | none =>
    cases fetched with
    | failed => exact ⟨rfl, rfl⟩
    | ok csvText =>
      by_cases h1 : parsed.hasErrors = true
      · simp [h1]
      · by_cases h2 : parsed.data.length = 0
        · simp [h1, h2]
        · simp [h1, h2]

theorem downloadCSV_single_latest (toFixed4 : ℚ → String) (v : Visualizer) (doc : Sliders)
    (country : String) (entry : CountryEntry) (hsel : v.selectedCountries = [country])
    (hmode : v.estimationMode = "latest") (hentry : v.countryData country = some entry) :
    downloadCSV toFixed4 v doc =
      (some { content := entry.csvText,
              filename := "recession_risk_" ++ fileLabel country ++ "_latest.csv" }, v) := by
  unfold downloadCSV
  simp [hsel, hmode, hentry]

/-- Claim C20. Round trip of the single-country export. Once `loadCountryData` has
fetched the text `csvText` for a country and stored it (the file parses without errors
into at least one row), with that country the only selected one and the mode `latest`,
`downloadCSV` exports exactly `csvText`; a later `loadCountryData` for the country
returns the cached entry and leaves the stored text as it is. -/
theorem downloadCSV_roundtrip (toFixed4 : ℚ → String) (v : Visualizer) (doc : Sliders)
    (country csvText : String) (parsed : ParseResult)
    (hfresh : v.countryData country = none)
    (herrors : parsed.hasErrors = false) (hrows : parsed.data ≠ [])
    (hsel : v.selectedCountries = [country]) (hmode : v.estimationMode = "latest") :
    (downloadCSV toFixed4 (loadCountryData v country (FetchResult.ok csvText) parsed)
        doc).1.map (fun file => file.content) = some csvText ∧
    ∀ (fetched : FetchResult) (parsed' : ParseResult),
      (downloadCSV toFixed4
        (loadCountryData (loadCountryData v country (FetchResult.ok csvText) parsed)
          country fetched parsed') doc).1.map (fun file => file.content) = some csvText := by
  have hstore := loadCountryData_stores v country csvText parsed hfresh herrors hrows
  have hkeep := loadCountryData_selection v country (FetchResult.ok csvText) parsed
  have hdl := downloadCSV_single_latest toFixed4
    (loadCountryData v country (FetchResult.ok csvText) parsed) doc country _
    (hkeep.1.trans hsel) (hkeep.2.trans hmode) hstore
  refine ⟨by rw [hdl]; rfl, fun fetched parsed' => ?_⟩
  rw [loadCountryData_cached _ country _ fetched parsed' hstore, hdl]
  rfl

theorem downloadCSV_roundtrip_witness :
    (downloadCSV sampleToFixed4
        (loadCountryData (emptyStoreUS "latest") "US" (FetchResult.ok sampleLatest.csvText)
          sampleParsed) fullRange3).1.map (fun file => file.content) =
      some sampleLatest.csvText ∧
    ∀ (fetched : FetchResult) (parsed' : ParseResult),
      (downloadCSV sampleToFixed4
        (loadCountryData
          (loadCountryData (emptyStoreUS "latest") "US"
            (FetchResult.ok sampleLatest.csvText) sampleParsed)
          "US" fetched parsed') fullRange3).1.map (fun file => file.content) =
        some sampleLatest.csvText :=
  downloadCSV_roundtrip sampleToFixed4 (emptyStoreUS "latest") fullRange3 "US"
    sampleLatest.csvText sampleParsed rfl rfl (by decide) rfl rfl

/-! ### No time point, no error -/

/-- Claim C30. When the unified time-point sequence is empty, `getFilteredData` returns
the empty list and leaves the visualizer, `hasOOSError` included, as it was, in every
mode and for every selection: the missing-data check comes after the early return. -/
theorem getFilteredData_no_time_points (v : Visualizer) (doc : Sliders)
    (hempty : getAllTimePoints v = []) :
    getFilteredData v doc = ([], v) ∧
      (getFilteredData v doc).2.hasOOSError = v.hasOOSError := by
  rw [getFilteredData_eq]
  simp [hempty]

theorem getFilteredData_no_time_points_witness :
    raisesMissingData (emptyStoreUS "realtime") = true ∧
    getFilteredData (emptyStoreUS "realtime") fullRange3 = ([], emptyStoreUS "realtime") ∧
      (getFilteredData (emptyStoreUS "realtime") fullRange3).2.hasOOSError =
        (emptyStoreUS "realtime").hasOOSError :=
  ⟨by decide, getFilteredData_no_time_points (emptyStoreUS "realtime") fullRange3 (by decide)⟩

/-! ### Export in mode `realtime` -/

/-- Claim C25. With one selected country and mode `realtime`, `downloadCSV` exports the
stored out-of-sample text under a `_realtime` file name when the out-of-sample series of
the country is loaded, and the stored Latest text under a `_latest` file name when it is
not. -/
theorem downloadCSV_single_realtime (toFixed4 : ℚ → String) (v : Visualizer) (doc : Sliders)
    (country : String) (hsel : v.selectedCountries = [country])
    (hmode : v.estimationMode = "realtime") :
    (∀ oos, v.countryDataOOS country = some oos →
      downloadCSV toFixed4 v doc =
        (some { content := oos.csvText,
                filename := "recession_risk_" ++ fileLabel country ++ "_realtime.csv" }, v)) ∧
    (∀ latest, v.countryDataOOS country = none → v.countryData country = some latest →
      downloadCSV toFixed4 v doc =
        (some { content := latest.csvText,
                filename := "recession_risk_" ++ fileLabel country ++ "_latest.csv" }, v)) := by
  constructor
  · intro oos hoos
    simp [downloadCSV, hsel, hmode, hoos]
  · intro latest hoos hlatest
    simp [downloadCSV, hsel, hmode, hoos, hlatest]

theorem downloadCSV_single_realtime_witness :
    downloadCSV sampleToFixed4 (usBothKinds "realtime") fullRange4 =
      (some { content := sampleOOS.csvText, filename := "recession_risk_US_realtime.csv" },
        usBothKinds "realtime") ∧
    downloadCSV sampleToFixed4 (latestOnlyUS "realtime") fullRange3 =
      (some { content := sampleLatest.csvText, filename := "recession_risk_US_latest.csv" },
        latestOnlyUS "realtime") :=
  ⟨(downloadCSV_single_realtime sampleToFixed4 (usBothKinds "realtime") fullRange4 "US" rfl
      rfl).1 sampleOOS rfl,
    (downloadCSV_single_realtime sampleToFixed4 (latestOnlyUS "realtime") fullRange3 "US" rfl
      rfl).2 sampleLatest rfl rfl⟩

/-! ### Exact endpoints and drag direction -/

theorem getDataIndexFromX_bounds (chart : Chart) (data : List DataPoint) (x : ℚ) (i : ℤ)
    (hdata : chart.filteredData = some data) (hi : getDataIndexFromX chart x = some i) :
    0 ≤ i ∧ i ≤ (data.length : ℤ) - 1 := by
  unfold getDataIndexFromX at hi
  cases hscale : chart.scalesX with
  | none => simp [hscale] at hi
  | some xScale =>
    simp only [hscale, hdata, Option.getD_some] at hi
    by_cases hlen : data.length = 0
    · simp [dataIndexOnScale, hlen] at hi
    · obtain ⟨k, hk, hk0, hk1⟩ := dataIndexOnScale_range xScale data.length x (by omega)
      rw [hk] at hi
      cases hi
      exact ⟨hk0, hk1⟩

/-- Claim C26. When the view shows exactly the active range `[curStart, curEnd]`
(`curEnd - curStart + 1` records, `0 ≤ curStart < curEnd ≤ maxIndex`), a commit over two
distinct view indices writes `finalStart = curStart + a` and `finalEnd = curStart + b`,
`a < b` being the smaller and the larger of the two indices: the absolute indices under
the two drag ends, without rounding drift. -/
theorem applySelection_exact (chart : Chart) (rectWidth : ℚ) (doc : RangeSliders)
    (data : List DataPoint) (x1 x2 : ℚ) (i j : ℤ)
    (hdata : chart.filteredData = some data)
    (hview : (data.length : ℤ) = doc.endValue - doc.startValue + 1)
    (h0 : 0 ≤ doc.startValue) (hlt : doc.startValue < doc.endValue)
    (hmax : doc.endValue ≤ doc.max)
    (hs : chart.timeSelection.startX = some x1) (he : chart.timeSelection.endX = some x2)
    (hi : getDataIndexFromX chart (clampToCanvas rectWidth x1) = some i)
    (hj : getDataIndexFromX chart (clampToCanvas rectWidth x2) = some j) (hij : i ≠ j) :
    (applySelection chart rectWidth doc).sliders =
      { startValue := doc.startValue + min i j, endValue := doc.startValue + max i j,
        max := doc.max } := by
  obtain ⟨hi0, hi1⟩ := getDataIndexFromX_bounds chart data _ i hdata hi
  obtain ⟨hj0, hj1⟩ := getDataIndexFromX_bounds chart data _ j hdata hj
  rw [(applySelection_commit chart rectWidth doc x1 x2 i j hs he hi hj hij).1,
    committedRange_exact chart doc data i j hdata hview h0 hlt hmax hi0 hi1 hj0 hj1 hij]

theorem applySelection_exact_witness :
    (applySelection dragChart 600 fullRange100).sliders =
      { startValue := fullRange100.startValue + min 8 33,
        endValue := fullRange100.startValue + max 8 33, max := fullRange100.max } :=
  applySelection_exact dragChart 600 fullRange100 _ 50 200 8 33 rfl (by decide) (by decide)
    (by decide) (by decide) rfl rfl dragChart_index_50 dragChart_index_200 (by decide)

theorem committedRange_comm (chart : Chart) (doc : RangeSliders) (i j : ℤ) :
    committedRange chart doc i j = committedRange chart doc j i := by
  simp only [committedRange, min_comm i j, max_comm i j]

theorem committedRange_withDrag (chart : Chart) (doc : RangeSliders) (a b : ℚ) (i j : ℤ) :
    committedRange (withDrag chart a b) doc i j = committedRange chart doc i j := rfl

theorem applySelection_outcome (chart : Chart) (rectWidth : ℚ) (doc : RangeSliders)
    (a b : ℚ) (hs : chart.timeSelection.startX = some a)
    (he : chart.timeSelection.endX = some b) :
    ((applySelection chart rectWidth doc).sliders,
        (applySelection chart rectWidth doc).updated) =
      commitOutcome chart doc (getDataIndexFromX chart (clampToCanvas rectWidth a))
        (getDataIndexFromX chart (clampToCanvas rectWidth b)) := by
  unfold applySelection commitOutcome
  simp only [hs, he]
  cases getDataIndexFromX chart (clampToCanvas rectWidth a) <;>
    cases getDataIndexFromX chart (clampToCanvas rectWidth b)
  · rfl
  · rfl
  · rfl
  · rename_i i j
    by_cases hij : i = j
    · simp [hij]
    · simp [hij]

theorem commitOutcome_comm (chart : Chart) (doc : RangeSliders) (si ei : Option ℤ) :
    commitOutcome chart doc si ei = commitOutcome chart doc ei si := by
  unfold commitOutcome
  cases si <;> cases ei
  · rfl
  · rfl
  · rfl
  · rename_i i j
    by_cases hij : i = j
    · subst hij
      rfl
    · have hji : ¬ j = i := fun h => hij h.symm
      simp only [ne_eq, hij, hji, not_false_eq_true, if_true]
      rw [committedRange_comm chart doc i j]

theorem commitOutcome_withDrag (chart : Chart) (doc : RangeSliders) (a b : ℚ)
    (si ei : Option ℤ) :
    commitOutcome (withDrag chart a b) doc si ei = commitOutcome chart doc si ei := rfl

/-- Claim C27. The committed range does not depend on the drag direction: for all pixels
`a` and `b`, every chart and every slider state, `applySelection` with
`(startX, endX) = (a, b)` leaves the sliders (and the recomputation flag) as it does with
`(startX, endX) = (b, a)`. -/
theorem applySelection_direction (chart : Chart) (rectWidth : ℚ) (doc : RangeSliders)
    (a b : ℚ) :
    (applySelection (withDrag chart a b) rectWidth doc).sliders =
      (applySelection (withDrag chart b a) rectWidth doc).sliders ∧
    (applySelection (withDrag chart a b) rectWidth doc).updated =
      (applySelection (withDrag chart b a) rectWidth doc).updated := by
  have h1 := applySelection_outcome (withDrag chart a b) rectWidth doc a b rfl rfl
  have h2 := applySelection_outcome (withDrag chart b a) rectWidth doc b a rfl rfl
  rw [commitOutcome_withDrag] at h1 h2
  have hx : ∀ c d x, getDataIndexFromX (withDrag chart c d) x = getDataIndexFromX chart x :=
    fun _ _ _ => rfl
  rw [hx, hx] at h1 h2
  rw [commitOutcome_comm] at h2
  have h := h1.trans h2.symm
  exact ⟨congrArg Prod.fst h, congrArg Prod.snd h⟩

/-! ### Pointer events -/

/-- Claim C24 as stated, refuted. The plot spans the pixels 40..560 of a canvas 600
pixels wide and a drag is under way; a move to pixel 10 stores `endX = 10`, left of the
x scale's left edge. -/
theorem chartMouseMove_plot_bounds_counterexample :
    insetDrag.isMouseDown = true ∧ insetDrag.chart.timeSelection.isSelecting = true ∧
    insetDrag.chart.scalesX = some { left := 40, right := 560 } ∧
    (chartMouseMove insetDrag 10 600).chart.timeSelection.endX = some 10 ∧
    (10 : ℚ) < 40 := by
  refine ⟨rfl, rfl, rfl, ?_, by norm_num⟩
  simp [chartMouseMove, insetDrag]
  norm_num

/-- Claim C24 as amended. For every pointer-move received while dragging, the stored
`endX` afterwards lies within the canvas, between `0` and `rect.width`, and the anchor
`startX` is unchanged. -/
theorem chartMouseMove_canvas_bounds (s : DragState) (x rectWidth : ℚ)
    (hdown : s.isMouseDown = true) (hsel : s.chart.timeSelection.isSelecting = true)
    (hwidth : 0 ≤ rectWidth) :
    (∃ endX, (chartMouseMove s x rectWidth).chart.timeSelection.endX = some endX ∧
      0 ≤ endX ∧ endX ≤ rectWidth) ∧
    (chartMouseMove s x rectWidth).chart.timeSelection.startX =
      s.chart.timeSelection.startX := by
  rw [chartMouseMove, if_pos (by simp [hdown, hsel])]
  exact ⟨⟨_, rfl, le_max_left _ _, max_le hwidth (min_le_right _ _)⟩, rfl⟩

theorem chartMouseMove_canvas_bounds_witness :
    (∃ endX, (chartMouseMove insetDrag 10 600).chart.timeSelection.endX = some endX ∧
      0 ≤ endX ∧ endX ≤ 600) ∧
    (chartMouseMove insetDrag 10 600).chart.timeSelection.startX =
      insetDrag.chart.timeSelection.startX :=
  chartMouseMove_canvas_bounds insetDrag 10 600 rfl rfl (by norm_num)

theorem applySelection_chart (chart : Chart) (rectWidth : ℚ) (doc : RangeSliders) :
    (applySelection chart rectWidth doc).chart =
      { chart with
        timeSelection := { chart.timeSelection with startX := none, endX := none } } := by
  unfold applySelection
  dsimp only
  split
  · split
    · split <;> rfl
    · rfl
  · rfl

theorem applySelection_clears (chart : Chart) (rectWidth : ℚ) (doc : RangeSliders) :
    (applySelection chart rectWidth doc).chart.timeSelection.startX = none ∧
      (applySelection chart rectWidth doc).chart.timeSelection.endX = none ∧
      (applySelection chart rectWidth doc).chart.timeSelection.isSelecting =
        chart.timeSelection.isSelecting := by
  rw [applySelection_chart]
  exact ⟨rfl, rfl, rfl⟩

theorem noStaleDrag_handleEvent (s : DragState) (e : PointerEvent) (h : NoStaleDrag s) :
    NoStaleDrag (handleEvent s e) := by
  cases e with
  | mousedown x =>
    intro hsel
    simp [handleEvent, chartMouseDown] at hsel
  | mousemove x rectWidth =>
    simp only [handleEvent, chartMouseMove]
    by_cases hc : (s.isMouseDown && s.chart.timeSelection.isSelecting) = true
    · rw [if_pos hc]
      intro hsel
      have : s.chart.timeSelection.isSelecting = true := by
        have := hc
        simp only [Bool.and_eq_true] at this
        exact this.2
      simp only at hsel
      rw [this] at hsel
      cases hsel
    · rw [if_neg hc]
      exact h
  | mouseup rectWidth =>
    simp only [handleEvent, chartMouseUp]
    by_cases hc : (s.isMouseDown && s.chart.timeSelection.isSelecting) = true
    · rw [if_pos hc]
      intro _
      exact ⟨(applySelection_clears _ rectWidth s.sliders).1,
        (applySelection_clears _ rectWidth s.sliders).2.1⟩
    · rw [if_neg hc]
      exact h
  | mouseleave => exact h

theorem noStaleDrag_runEvents (s : DragState) (events : List PointerEvent)
    (h : NoStaleDrag s) : NoStaleDrag (runEvents s events) := by
  induction events generalizing s with
  | nil => exact h
  | cons e rest ih => exact ih (handleEvent s e) (noStaleDrag_handleEvent s e h)

/-- Claim C28. In every state reached from `beforeInit` through a sequence of mousedown,
mousemove, mouseup and mouseleave events, `isSelecting = false` implies `startX = null`
and `endX = null`. -/
theorem runEvents_no_stale_drag (chart : Chart) (sliders : RangeSliders)
    (events : List PointerEvent)
    (hidle : (runEvents (initialDragState chart sliders)
      events).chart.timeSelection.isSelecting = false) :
    (runEvents (initialDragState chart sliders) events).chart.timeSelection.startX = none ∧
      (runEvents (initialDragState chart sliders) events).chart.timeSelection.endX = none :=
  noStaleDrag_runEvents (initialDragState chart sliders) events (fun _ => ⟨rfl, rfl⟩) hidle

theorem dragEvents_released :
    (runEvents (initialDragState dragChart fullRange100)
      [PointerEvent.mousedown 50, PointerEvent.mouseleave, PointerEvent.mousemove 200 600,
        PointerEvent.mouseup 600]).chart.timeSelection.isSelecting = false := by
  simp [runEvents, handleEvent, chartMouseDown, chartMouseMove, chartMouseLeave, chartMouseUp,
    initialDragState, beforeInit, applySelection_chart]

theorem runEvents_no_stale_drag_witness :
    (runEvents (initialDragState dragChart fullRange100)
      [PointerEvent.mousedown 50, PointerEvent.mouseleave, PointerEvent.mousemove 200 600,
        PointerEvent.mouseup 600]).chart.timeSelection.startX = none ∧
    (runEvents (initialDragState dragChart fullRange100)
      [PointerEvent.mousedown 50, PointerEvent.mouseleave, PointerEvent.mousemove 200 600,
        PointerEvent.mouseup 600]).chart.timeSelection.endX = none :=
  runEvents_no_stale_drag dragChart fullRange100 _ dragEvents_released

/-! ### Teardown -/

theorem mem_removeEventListener (listeners : List Listener) (target : ListenerTarget)
    (event : EventType) (handler : Option Handler) (l : Listener) :
    l ∈ removeEventListener listeners target event handler ↔
      l ∈ listeners ∧
        ∀ h, handler = some h → l ≠ { target := target, event := event, handler := h } := by
  unfold removeEventListener
  cases handler with
  | none => simp
  | some h => simp [List.mem_filter]

theorem mem_removeChartListeners (listeners : List Listener) (canvas : CanvasHandlers)
    (l : Listener) :
    l ∈ removeChartListeners listeners canvas ↔ l ∈ listeners ∧ l ∉ chartListeners canvas := by
  unfold removeChartListeners chartListeners
  simp only [mem_removeEventListener, List.mem_append, List.mem_map, Option.mem_toList,
    Option.mem_def]
  constructor
  · rintro ⟨⟨⟨⟨hl, h1⟩, h2⟩, h3⟩, h4⟩
    refine ⟨hl, ?_⟩
    rintro (((⟨h, hh, rfl⟩ | ⟨h, hh, rfl⟩) | ⟨h, hh, rfl⟩) | ⟨h, hh, rfl⟩)
    · exact h1 h hh rfl
    · exact h2 h hh rfl
    · exact h3 h hh rfl
    · exact h4 h hh rfl
  · rintro ⟨hl, hn⟩
    refine ⟨⟨⟨⟨hl, ?_⟩, ?_⟩, ?_⟩, ?_⟩
    · intro h hh heq
      exact hn (Or.inl (Or.inl (Or.inl ⟨h, hh, heq.symm⟩)))
    · intro h hh heq
      exact hn (Or.inl (Or.inl (Or.inr ⟨h, hh, heq.symm⟩)))
    · intro h hh heq
      exact hn (Or.inl (Or.inr ⟨h, hh, heq.symm⟩))
    · intro h hh heq
      exact hn (Or.inr ⟨h, hh, heq.symm⟩)

/-- On a chart fresh from `beforeInit`, `afterInit` registers the four handlers, two of
them on the document, and `beforeDestroy` then leaves no listener registered. -/
theorem afterInit_registers_four :
    (afterInit freshPlugin).listeners =
      [{ target := ListenerTarget.canvas, event := EventType.mousedown,
         handler := { generation := 0, kind := EventType.mousedown } },
       { target := ListenerTarget.document, event := EventType.mousemove,
         handler := { generation := 0, kind := EventType.mousemove } },
       { target := ListenerTarget.document, event := EventType.mouseup,
         handler := { generation := 0, kind := EventType.mouseup } },
       { target := ListenerTarget.canvas, event := EventType.mouseleave,
         handler := { generation := 0, kind := EventType.mouseleave } }] ∧
    (beforeDestroy (afterInit freshPlugin)).listeners = [] := by
  refine ⟨by decide, by decide⟩

theorem beforeDestroy_attached (s : PluginState) (canvas : CanvasHandlers)
    (hcanvas : s.canvas = some canvas)
    (hflag : s.chart.timeSelection.eventsAttached = true) :
    beforeDestroy s =
      setEventsAttached { s with listeners := removeChartListeners s.listeners canvas }
        false := by
  simp [beforeDestroy, hcanvas, hflag]

/-- Claim C23. Teardown releases every listener the plugin registered. `setupCanvasEvents`
runs inside `afterInit`, its only call site, which sets `eventsAttached` right after it.
For a chart with a canvas on which the listeners are not yet attached, after `afterInit`
followed by `beforeDestroy`, none of the chart's mousedown, mousemove, mouseup and
mouseleave listeners is registered any more, the two on the document included, and
`eventsAttached` is `false`. -/
theorem beforeDestroy_releases (s : PluginState) (canvas : CanvasHandlers)
    (hcanvas : s.canvas = some canvas)
    (hflag : s.chart.timeSelection.eventsAttached = false) :
    (∀ l ∈ (beforeDestroy (afterInit s)).listeners,
      ¬ IsChartListener (beforeDestroy (afterInit s)) l) ∧
    (beforeDestroy (afterInit s)).chart.timeSelection.eventsAttached = false := by
  have hinit : afterInit s = setEventsAttached (setupCanvasEvents s) true := by
    simp [afterInit, hflag]
  have hc : ∃ created, (afterInit s).canvas = some created := by
    rw [hinit]
    simp [setEventsAttached, setupCanvasEvents, hcanvas]
  obtain ⟨created, hcreated⟩ := hc
  have hatt : (afterInit s).chart.timeSelection.eventsAttached = true := by
    rw [hinit]
    rfl
  rw [beforeDestroy_attached (afterInit s) created hcreated hatt]
  refine ⟨fun l hl => ?_, rfl⟩
  rintro ⟨canvas', hcanvas', hmem⟩
  have hsame : canvas' = created := by
    have : (afterInit s).canvas = some canvas' := hcanvas'
    rw [hcreated] at this
    exact (Option.some.inj this).symm
  subst hsame
  have hl' : l ∈ removeChartListeners (afterInit s).listeners canvas' := hl
  exact ((mem_removeChartListeners _ _ l).mp hl').2 hmem

theorem beforeDestroy_releases_witness :
    (∀ l ∈ (beforeDestroy (afterInit freshPlugin)).listeners,
      ¬ IsChartListener (beforeDestroy (afterInit freshPlugin)) l) ∧
    (beforeDestroy (afterInit freshPlugin)).chart.timeSelection.eventsAttached = false :=
  beforeDestroy_releases freshPlugin _ rfl rfl

/-! ### Changing the selection -/

/-- Claim C22. An attempt to deselect all countries is rejected: when no checkbox is
checked, `handleCountrySelectionChange` returns before any load or update, so
`selectedCountries`, the estimation mode and both series stores (indeed the whole page
state) are as they were. -/
theorem handleCountrySelectionChange_empty (env : LoadEnv) (p : Page)
    (hnone : ∀ cb ∈ p.checkboxes, cb.checked = false) :
    handleCountrySelectionChange env p = p ∧
    (handleCountrySelectionChange env p).visualizer.selectedCountries =
      p.visualizer.selectedCountries ∧
    (handleCountrySelectionChange env p).visualizer.estimationMode =
      p.visualizer.estimationMode ∧
    (handleCountrySelectionChange env p).visualizer.countryData = p.visualizer.countryData ∧
    (handleCountrySelectionChange env p).visualizer.countryDataOOS =
      p.visualizer.countryDataOOS := by
  have hfilter : p.checkboxes.filter (fun cb => cb.checked) = [] := by
    rw [List.filter_eq_nil_iff]
    intro cb hcb
    simp [hnone cb hcb]
  have h : handleCountrySelectionChange env p = p := by
    simp [handleCountrySelectionChange, hfilter]
  rw [h]
  exact ⟨rfl, rfl, rfl, rfl, rfl⟩

theorem handleCountrySelectionChange_empty_witness :
    handleCountrySelectionChange sampleEnv allUnticked = allUnticked ∧
    (handleCountrySelectionChange sampleEnv allUnticked).visualizer.selectedCountries =
      allUnticked.visualizer.selectedCountries ∧
    (handleCountrySelectionChange sampleEnv allUnticked).visualizer.estimationMode =
      allUnticked.visualizer.estimationMode ∧
    (handleCountrySelectionChange sampleEnv allUnticked).visualizer.countryData =
      allUnticked.visualizer.countryData ∧
    (handleCountrySelectionChange sampleEnv allUnticked).visualizer.countryDataOOS =
      allUnticked.visualizer.countryDataOOS :=
  handleCountrySelectionChange_empty sampleEnv allUnticked (by decide)

/-! ### Available countries, computed twice -/

theorem countryCodes_no_clash :
    ∀ a ∈ countryCodes, a ≠ "Time" ∧ ∀ b ∈ countryCodes, a ≠ b ++ "_OOS" := by
  decide

theorem hasKey_buildDataPoint_any_mode (v : Visualizer) (t c : String)
    (hTime : "Time" ∉ v.selectedCountries)
    (hOOS : ∀ a ∈ v.selectedCountries, ∀ b ∈ v.selectedCountries, a ≠ b ++ "_OOS")
    (hc : c ∈ v.selectedCountries) :
    (getKey (buildDataPoint v t) c).isSome = isAvailable v c := by
  by_cases hmode : v.estimationMode = "latest" ∨ v.estimationMode = "realtime" ∨
      v.estimationMode = "both"
  · exact hasKey_buildDataPoint v t c hmode hTime hOOS hc
  · have h1 : ¬ v.estimationMode = "latest" := fun h => hmode (Or.inl h)
    have h2 : ¬ v.estimationMode = "realtime" := fun h => hmode (Or.inr (Or.inl h))
    have h3 : ¬ v.estimationMode = "both" := fun h => hmode (Or.inr (Or.inr h))
    have hav : ∀ c', isAvailable v c' = false := by
      intro c'
      simp [isAvailable, h1, h2, h3]
    have hnil : availableCountries v = [] := by
      simp [availableCountries, hav]
    have hne : "Time" ≠ c := fun h => hTime (h ▸ hc)
    simp [buildDataPoint, hnil, hav, getKey, hne]

/-- Claim C29. For a non-empty record list returned by `getFilteredData`, with country
codes from the six-code table, the list `prepareChartData` derives from the records (the
selected countries that have a key in some record) is the list `availableCountries` that
`getFilteredData` built the records from. -/
theorem prepareChartData_available (v : Visualizer) (doc : Sliders)
    (hcodes : ∀ c ∈ v.selectedCountries, c ∈ countryCodes)
    (hrecords : (getFilteredData v doc).1 ≠ []) :
    (prepareChartData v (getFilteredData v doc).1).availableCountries =
      availableCountries v := by
  have hTime : "Time" ∉ v.selectedCountries :=
    fun h => (countryCodes_no_clash "Time" (hcodes _ h)).1 rfl
  have hOOS : ∀ a ∈ v.selectedCountries, ∀ b ∈ v.selectedCountries, a ≠ b ++ "_OOS" :=
    fun a ha b hb => (countryCodes_no_clash a (hcodes a ha)).2 b (hcodes b hb)
  unfold prepareChartData availableCountries
  apply List.filter_congr
  intro c hc
  have hall : ∀ r ∈ (getFilteredData v doc).1, (getKey r c).isSome = isAvailable v c := by
    intro r hr
    obtain ⟨t, rfl⟩ := mem_getFilteredData v doc r hr
    exact hasKey_buildDataPoint_any_mode v t c hTime hOOS hc
  cases hlist : (getFilteredData v doc).1 with
  | nil => exact absurd hlist hrecords
  | cons r rest =>
    rw [hlist] at hall
    cases hav : isAvailable v c with
    | true =>
      rw [List.any_eq_true]
      exact ⟨r, List.mem_cons_self _ _, by rw [hall r (List.mem_cons_self _ _), hav]⟩
    | false =>
      rw [List.any_eq_false]
      intro x hx
      rw [hall x hx, hav]
      simp

theorem prepareChartData_available_witness :
    (prepareChartData (usAndDE "realtime")
        (getFilteredData (usAndDE "realtime") fullRange4).1).availableCountries =
      availableCountries (usAndDE "realtime") :=
  prepareChartData_available (usAndDE "realtime") fullRange4 (by decide) (by
    intro h
    have := congrArg List.length h
    revert this
    decide)

/-! ### The combined CSV -/

theorem header_foldl (countries : List String) (init : String) :
    countries.foldl (fun csv country => csv ++ ",RecessionRisk_" ++ country ++ "_p50") init =
      init ++ concatAll (countries.map headerField) := by
  induction countries generalizing init with
  | nil => simp [concatAll]
  | cons c rest ih =>
    rw [List.foldl_cons, ih]
    simp only [List.map_cons, concatAll, List.foldr_cons, headerField, String.append_assoc]

theorem value_of_mem_assignAll (as : List (String × Value)) (d : DataPoint) (k : String)
    (val : Value) (h : getKey (assignAll d as) k = some val) :
    getKey d k = some val ∨ ∃ kv ∈ as, kv.1 = k ∧ kv.2 = val := by
  induction as generalizing d with
  | nil => exact Or.inl h
  | cons kv rest ih =>
    have h' : getKey (assignAll (setKey d kv.1 kv.2) rest) k = some val := h
    rcases ih _ h' with hd | ⟨kv', hkv', hk, hv⟩
    · rw [getKey_setKey] at hd
      by_cases hkk : kv.1 = k
      · rw [if_pos hkk] at hd
        exact Or.inr ⟨kv, List.mem_cons_self _ _, hkk, Option.some.inj hd⟩
      · rw [if_neg hkk] at hd
        exact Or.inl hd
    · exact Or.inr ⟨kv', List.mem_cons_of_mem _ hkv', hk, hv⟩

theorem findRow_ne_str (data : List Row) (t s : String) : findRow data t ≠ Value.str s := by
  unfold findRow
  cases data.find? (fun row => row.Time = t) <;> simp

theorem value_of_mem_countryAssignments (v : Visualizer) (t c s : String)
    (kv : String × Value) (h : kv ∈ countryAssignments v t c) : kv.2 ≠ Value.str s := by
  have hl : ∀ c', latestValue v t c' ≠ Value.str s := by
    intro c'
    unfold latestValue
    cases v.countryData c' with
    | none => simp
    | some e => exact findRow_ne_str _ _ _
  have ho : ∀ c', oosValue v t c' ≠ Value.str s := by
    intro c'
    unfold oosValue
    cases v.countryDataOOS c' with
    | none => simp
    | some e => exact findRow_ne_str _ _ _
  by_cases h1 : v.estimationMode = "latest"
  · rw [countryAssignments_latest v t c h1, List.mem_singleton] at h
    rw [h]
    exact hl c
  · by_cases h2 : v.estimationMode = "realtime"
    · rw [countryAssignments_realtime v t c h2, List.mem_singleton] at h
      rw [h]
      exact ho c
    · by_cases h3 : v.estimationMode = "both"
      · rw [countryAssignments_both v t c h3] at h
        rcases List.mem_cons.mp h with h | h
        · rw [h]
          exact hl c
        · rw [List.mem_singleton] at h
          rw [h]
          exact ho c
      · simp [countryAssignments, h1, h2, h3] at h

/-- Under a key other than `Time` a record holds a row or `null`, never a string. -/
theorem getKey_buildDataPoint_ne_str (v : Visualizer) (t k s : String) (hk : k ≠ "Time") :
    getKey (buildDataPoint v t) k ≠ some (Value.str s) := by
  intro h
  rw [buildDataPoint_eq] at h
  rcases value_of_mem_assignAll _ _ _ _ h with hd | ⟨kv, hkv, -, hv⟩
  · have hne : ¬ "Time" = k := fun h => hk h.symm
    simp [getKey, hne] at hd
  · obtain ⟨c, -, hc⟩ := List.mem_flatMap.mp hkv
    exact value_of_mem_countryAssignments v t c s kv hc hv

theorem countryField_eq (toFixed4 : ℚ → String) (dataPoint : DataPoint) (country : String)
    (h : ∀ s, getKey dataPoint country ≠ some (Value.str s)) :
    countryField toFixed4 dataPoint country =
      some ("," ++ fieldValue toFixed4 dataPoint country) := by
  unfold countryField fieldValue
  cases hk : getKey dataPoint country with
  | none => rfl
  | some val =>
    cases val with
    | str s => exact absurd hk (h s)
    | row r => rfl
    | null => rfl

theorem appendFields_eq (toFixed4 : ℚ → String) (dataPoint : DataPoint)
    (countries : List String) (line : String)
    (h : ∀ c ∈ countries, ∀ s, getKey dataPoint c ≠ some (Value.str s)) :
    appendFields toFixed4 dataPoint countries line =
      some (line ++
        concatAll (countries.map (fun c => "," ++ fieldValue toFixed4 dataPoint c))) := by
  induction countries generalizing line with
  | nil => simp [appendFields, concatAll]
  | cons c rest ih =>
    rw [appendFields, countryField_eq toFixed4 dataPoint c (h c (List.mem_cons_self _ _))]
    simp only
    rw [ih _ (fun c' hc' => h c' (List.mem_cons_of_mem _ hc'))]
    simp only [List.map_cons, concatAll, List.foldr_cons, String.append_assoc]

theorem appendLines_eq (toFixed4 : ℚ → String) (countries : List String)
    (records : List DataPoint) (csv : String)
    (h : ∀ r ∈ records, ∀ c ∈ countries, ∀ s, getKey r c ≠ some (Value.str s)) :
    appendLines toFixed4 countries records csv =
      some (csv ++ concatAll (records.map (csvLine toFixed4 countries))) := by
  induction records generalizing csv with
  | nil => simp [appendLines, concatAll]
  | cons r rest ih =>
    rw [appendLines, appendFields_eq toFixed4 r countries _ (h r (List.mem_cons_self _ _))]
    simp only
    rw [ih _ (fun r' hr' => h r' (List.mem_cons_of_mem _ hr'))]
    simp only [List.map_cons, concatAll, List.foldr_cons, csvLine, String.append_assoc]

/-- Claim C21. For a non-empty reconciled view, `generateCombinedCSV` returns the header
line `Time` followed by `,RecessionRisk_<code>_p50` for each selected country in
selection order, then one line per record in view order: the record's `Time` followed by
one comma-prefixed field per selected country, empty when the record has no sub-record
for the country. Header and data lines thus have the same number of fields. No country
code is taken to be `Time`. -/
theorem generateCombinedCSV_shape (toFixed4 : ℚ → String) (v : Visualizer) (doc : Sliders)
    (hTime : "Time" ∉ v.selectedCountries)
    (hrecords : (getFilteredData v doc).1 ≠ []) :
    (generateCombinedCSV toFixed4 v doc).1 =
      some ("Time" ++ concatAll (v.selectedCountries.map headerField) ++ "\n" ++
        concatAll ((getFilteredData v doc).1.map (csvLine toFixed4 v.selectedCountries))) ∧
    (∀ r ∈ (getFilteredData v doc).1,
      (∃ t, getKey r "Time" = some (Value.str t) ∧ timeText r = t) ∧
      (v.selectedCountries.map (fun c => "," ++ fieldValue toFixed4 r c)).length =
        (v.selectedCountries.map headerField).length ∧
      ∀ c, (getKey r c = none ∨ getKey r c = some Value.null) →
        fieldValue toFixed4 r c = "") := by
  constructor
  · unfold generateCombinedCSV
    have hlen : (getFilteredData v doc).1.length ≠ 0 := by simpa using hrecords
    simp only [hlen, if_false]
    have hstr : ∀ r ∈ (getFilteredData v doc).1, ∀ c ∈ v.selectedCountries, ∀ s,
        getKey r c ≠ some (Value.str s) := by
      intro r hr c hc s
      obtain ⟨t, rfl⟩ := mem_getFilteredData v doc r hr
      exact getKey_buildDataPoint_ne_str v t c s (fun h => hTime (h ▸ hc))
    rw [header_foldl, appendLines_eq toFixed4 _ _ _ hstr]
  · intro r hr
    obtain ⟨t, rfl⟩ := mem_getFilteredData v doc r hr
    have ht := getKey_Time_buildDataPoint v t hTime
    refine ⟨⟨t, ht, by simp [timeText, ht]⟩, by simp, ?_⟩
    rintro c (h | h) <;> simp [fieldValue, h]

theorem generateCombinedCSV_shape_witness :
    (generateCombinedCSV sampleToFixed4 (usAndDE "latest") fullRange4).1 =
      some ("Time" ++ concatAll ((usAndDE "latest").selectedCountries.map headerField) ++ "\n" ++
        concatAll ((getFilteredData (usAndDE "latest") fullRange4).1.map
          (csvLine sampleToFixed4 (usAndDE "latest").selectedCountries))) ∧
    (∀ r ∈ (getFilteredData (usAndDE "latest") fullRange4).1,
      (∃ t, getKey r "Time" = some (Value.str t) ∧ timeText r = t) ∧
      ((usAndDE "latest").selectedCountries.map
          (fun c => "," ++ fieldValue sampleToFixed4 r c)).length =
        ((usAndDE "latest").selectedCountries.map headerField).length ∧
      ∀ c, (getKey r c = none ∨ getKey r c = some Value.null) →
        fieldValue sampleToFixed4 r c = "") :=
  generateCombinedCSV_shape sampleToFixed4 (usAndDE "latest") fullRange4 (by decide) (by
    intro h
    have := congrArg List.length h
    revert this
    decide)

end RecessionRisk
